import Mathlib

/-!
# Verification of the skill-tree layout engine and skill-data model

Shallow embedding, in Lean 4 over exact rationals, of the JavaScript
source of the `sb_my_org_skill-tree` repository:

* the skill-data store (`addSkill`, `validateSkill`, `isSkillUnlocked`,
  `updateUnlockedSkills`, `completeSkill`) from the skill-data class;
* the minimal D3-style force simulation (`ForceSimulation.tick`,
  `ForceManyBody`) from `js/d3-force-simulation.js`;
* the layout pipeline of the `SkillTree` class in `js/skill-tree.js`
  (`establishRadialCategorySeedPoints`, `organizeSkillsByDepth`,
  `positionSkillsRadially`, `createSpatialGrid`,
  `getNearbySkillsFromGrid`, `applyEnhancedForceDirectedLayout`,
  `onSimulationTick`, `calculateOrganicConnectionPath`).

JavaScript numbers are embedded as `ℚ`; every value produced by the
embedding is therefore finite by construction.  The transcendental
library functions (`Math.sqrt`, `Math.pow` with fractional exponents,
`Math.cos`, `Math.sin`, the constant `Math.PI`) are passed in as an
explicit oracle record, so theorems quantifying over the oracle hold in
particular for the IEEE-754 versions of those functions; concrete
witnesses instantiate the oracle with exact rational functions.
`Math.random()` is embedded as an explicit stream `ℕ → ℚ` together with
a cursor that counts how many values have been consumed.  Console
logging and rendering side effects are not modelled.
-/

/-- A 2-D point / vector (`{x, y}` object in the source). -/
structure Pos where
  x : ℚ
  y : ℚ
deriving DecidableEq, Repr

/-- Insertion-ordered association list standing for a JavaScript `Map`
lookup (`Map.get`): first entry with the key wins. -/
def mapGet {α : Type} (m : List (String × α)) (k : String) : Option α :=
  match m with
  | [] => none
  | (k', v) :: t => if k' = k then some v else mapGet t k

/-- `Map.set`: replace the value at an existing key in place, otherwise
append a new entry at the end (JavaScript `Map` insertion order). -/
def mapSet {α : Type} (m : List (String × α)) (k : String) (v : α) :
    List (String × α) :=
  match m with
  | [] => [(k, v)]
  | (k', v') :: t => if k' = k then (k', v) :: t else (k', v') :: mapSet t k v

/-! ## Skill-data store

Embedding of the skill-data class: skill records, field validation,
prerequisite-based unlocking and completion. -/

/-- A skill definition as passed to `addSkill`.  Each field that
`validateSkill` probes with `hasOwnProperty` is an `Option`, `none`
standing for an absent property.  `prerequisites` and `unlocks` are also
optional because the source guards them (`!skill.prerequisites`). -/
structure SkillInput where
  skill_id : Option String
  name : Option String
  description : Option String
  category : Option String
  points : Option ℚ
  position : Option Pos
  prerequisites : Option (List String)
  unlocks : Option (List String)
deriving DecidableEq, Repr

/-- A skill as stored in the `skills` map: the input data spread
together with the bookkeeping fields added by `addSkill`. -/
structure StoredSkill where
  data : SkillInput
  completed : Bool
  dateCompleted : Option String
  unlocked : Bool
deriving DecidableEq, Repr

/-- The `skills` map of the skill-data class. -/
def SkillMap : Type := List (String × StoredSkill)

/-- `userProgress` object optionally passed to `isSkillUnlocked`. -/
structure UserProgress where
  completedSkills : Option (List String)
deriving DecidableEq, Repr

/-- `prereqSkill && prereqSkill.completed` for one prerequisite id. -/
def prereqCompleted (skills : SkillMap) (pid : String) : Bool :=
  match mapGet skills pid with
  | some s => s.completed
  | none => false

/-- `isSkillUnlocked(skill, userProgress = null)`: true when the skill
has no prerequisites, otherwise every prerequisite must be in the user
progress (when given) or completed in the skills map. -/
def isSkillUnlocked (skills : SkillMap) (prereqs : Option (List String))
    (userProgress : Option UserProgress) : Bool :=
  match prereqs with
  | none => true
  | some l =>
    if l.length = 0 then true
    else
      match userProgress with
      | some up =>
        l.all fun pid =>
          match up.completedSkills with
          | some cs => cs.contains pid
          | none => false
      | none => l.all (prereqCompleted skills)

/-- `validateSkill(skill)`: all six required fields present. -/
def validateSkill (d : SkillInput) : Bool :=
  d.skill_id.isSome && d.name.isSome && d.description.isSome &&
    d.category.isSome && d.points.isSome && d.position.isSome

/-- `addSkill(skillData)`: reject invalid data returning `false` and
leaving the map untouched, otherwise insert the stored record and
return `true`.  (The source also logs to the console, not modelled.) -/
def addSkill (skills : SkillMap) (d : SkillInput) : Bool × SkillMap :=
  if validateSkill d then
    match d.skill_id with
    | some id =>
      (true, mapSet skills id
        { data := d, completed := false, dateCompleted := none,
          unlocked := isSkillUnlocked skills d.prerequisites none })
    | none => (false, skills)
  else (false, skills)

/-- `updateUnlockedSkills()`: recompute `unlocked` for every stored
skill from the current completion state.  The source mutates each entry
in place while iterating; since `isSkillUnlocked` reads only the
`completed` fields, which the loop never writes, the in-place loop is
equivalent to this simultaneous update. -/
def updateUnlockedSkills (skills : SkillMap) : SkillMap :=
  skills.map fun p =>
    (p.1, { p.2 with unlocked := isSkillUnlocked skills p.2.data.prerequisites none })

/-- `completeSkill(skillId)`: fail on an unknown or locked skill,
otherwise mark it completed with the current ISO date string (`now`,
an environment input) and re-derive `unlocked` for all skills. -/
def completeSkill (skills : SkillMap) (skillId : String) (now : String) :
    Bool × SkillMap :=
  match mapGet skills skillId with
  | none => (false, skills)
  | some s =>
    if s.unlocked then
      let s' := { s with completed := true, dateCompleted := some now }
      (true, updateUnlockedSkills (mapSet skills skillId s'))
    else (false, skills)

/-- `uncompleteSkill(skillId)`: clear completion and re-derive. -/
def uncompleteSkill (skills : SkillMap) (skillId : String) :
    Bool × SkillMap :=
  match mapGet skills skillId with
  | none => (false, skills)
  | some s =>
    let s' := { s with completed := false, dateCompleted := none }
    (true, updateUnlockedSkills (mapSet skills skillId s'))

/-- The prerequisites list of a stored skill, empty when absent. -/
def prereqIds (s : StoredSkill) : List String :=
  s.data.prerequisites.getD []

/-! ### Lemmas about the map operations -/

theorem mapGet_mapSet_self {α : Type} (m : List (String × α)) (k : String) (v : α) :
    mapGet (mapSet m k v) k = some v := by
  induction m with
  | nil => simp [mapSet, mapGet]
  | cons h t ih =>
    obtain ⟨k', v'⟩ := h
    by_cases hk : k' = k
    · subst hk
      simp [mapSet, mapGet]
    · simp [mapSet, mapGet, hk, ih]

theorem mapGet_map_snd {α β : Type} (g : String → α → β)
    (m : List (String × α)) (k : String) :
    mapGet (m.map fun p => (p.1, g p.1 p.2)) k =
      (mapGet m k).map (g k) := by
  induction m with
  | nil => rfl
  | cons h t ih =>
    obtain ⟨k', v⟩ := h
    by_cases hk : k' = k
    · subst hk
      simp [mapGet]
    · simp [mapGet, hk, ih]

theorem updateUnlockedSkills_get (m : SkillMap) (k : String) :
    mapGet (updateUnlockedSkills m) k =
      (mapGet m k).map fun s =>
        { s with unlocked := isSkillUnlocked m s.data.prerequisites none } := by
  unfold updateUnlockedSkills
  exact mapGet_map_snd (fun _ s =>
    { s with unlocked := isSkillUnlocked m s.data.prerequisites none }) m k

theorem updateUnlockedSkills_completed (m : SkillMap) (k : String) :
    (mapGet (updateUnlockedSkills m) k).map StoredSkill.completed
      = (mapGet m k).map StoredSkill.completed := by
  rw [updateUnlockedSkills_get]
  cases mapGet m k <;> rfl

theorem isSkillUnlocked_default_iff (m : SkillMap) (prereqs : Option (List String)) :
    isSkillUnlocked m prereqs none = true ↔
      ∀ pid ∈ prereqs.getD [], ∃ t, mapGet m pid = some t ∧ t.completed = true := by
  unfold isSkillUnlocked
  cases prereqs with
  | none => simp
  | some l =>
    by_cases hl : l.length = 0
    · have : l = [] := List.length_eq_zero.mp hl
      subst this
      simp
    · simp only [hl, if_false, List.all_eq_true, Option.getD_some]
      constructor
      · intro h pid hpid
        have := h pid hpid
        unfold prereqCompleted at this
        cases hg : mapGet m pid with
        | none => rw [hg] at this; exact absurd this (by simp)
        | some t => exact ⟨t, rfl, by rw [hg] at this; exact this⟩
      · intro h pid hpid
        obtain ⟨t, hget, hc⟩ := h pid hpid
        unfold prereqCompleted
        rw [hget]
        exact hc

/-- **C2.** After `updateUnlockedSkills` recomputes unlock state — as it
does on initial load, on completing or un-completing a skill, and on
importing progress — every stored skill's `unlocked` flag is `true` if
and only if every identifier in its prerequisites list refers to a
stored skill that is in the completed set (vacuously so when the
prerequisites list is empty or absent, so prerequisite-free skills are
always unlocked). -/
theorem updateUnlockedSkills_unlocked_iff (m : SkillMap) (k : String)
    (s : StoredSkill) (h : mapGet (updateUnlockedSkills m) k = some s) :
    s.unlocked = true ↔
      ∀ pid ∈ prereqIds s, ∃ t,
        mapGet (updateUnlockedSkills m) pid = some t ∧ t.completed = true := by
  rw [updateUnlockedSkills_get] at h
  cases hg : mapGet m k with
  | none => rw [hg] at h; exact absurd h (by simp)
  | some s0 =>
    rw [hg] at h
    simp only [Option.map_some', Option.some.injEq] at h
    have hcompl : ∀ pid, (∃ t, mapGet (updateUnlockedSkills m) pid = some t ∧
        t.completed = true) ↔ (∃ t, mapGet m pid = some t ∧ t.completed = true) := by
      intro pid
      constructor
      · rintro ⟨t, hget, hc⟩
        rw [updateUnlockedSkills_get] at hget
        cases hg2 : mapGet m pid with
        | none => rw [hg2] at hget; exact absurd hget (by simp)
        | some t0 =>
          rw [hg2] at hget
          simp only [Option.map_some', Option.some.injEq] at hget
          exact ⟨t0, rfl, by rw [← hget] at hc; exact hc⟩
      · rintro ⟨t, hget, hc⟩
        exact ⟨{ t with unlocked := isSkillUnlocked m t.data.prerequisites none },
          by rw [updateUnlockedSkills_get, hget]; rfl, hc⟩
    subst h
    simp only [prereqIds]
    rw [isSkillUnlocked_default_iff m s0.data.prerequisites]
    constructor
    · intro hall pid hpid
      exact (hcompl pid).mpr (hall pid hpid)
    · intro hall pid hpid
      exact (hcompl pid).mp (hall pid hpid)

/-- Witness for C2: a concrete two-skill store where the dependent
skill's recomputed flag matches the prerequisite criterion. -/
theorem updateUnlockedSkills_unlocked_iff_witness :
    (let root : StoredSkill :=
      { data := { skill_id := some "root", name := some "n", description := some "d",
                  category := some "c", points := some 5, position := some ⟨0, 0⟩,
                  prerequisites := some [], unlocks := some ["child"] },
        completed := true, dateCompleted := some "2026-01-01", unlocked := true }
    let child : StoredSkill :=
      { data := { skill_id := some "child", name := some "n", description := some "d",
                  category := some "c", points := some 5, position := some ⟨0, 0⟩,
                  prerequisites := some ["root"], unlocks := some [] },
        completed := false, dateCompleted := none, unlocked := false }
    let m : SkillMap := [("root", root), ("child", child)]
    ∀ s, mapGet (updateUnlockedSkills m) "child" = some s →
      (s.unlocked = true ↔
        ∀ pid ∈ prereqIds s, ∃ t,
          mapGet (updateUnlockedSkills m) pid = some t ∧ t.completed = true)) :=
  fun s h => updateUnlockedSkills_unlocked_iff _ "child" s h

/-- The conjunction of required-field presence that `validateSkill`
checks with `hasOwnProperty`, stated as a proposition. -/
def RequiredPresent (d : SkillInput) : Prop :=
  d.skill_id.isSome = true ∧ d.name.isSome = true ∧ d.description.isSome = true ∧
    d.category.isSome = true ∧ d.points.isSome = true ∧ d.position.isSome = true

instance (d : SkillInput) : Decidable (RequiredPresent d) := by
  unfold RequiredPresent
  infer_instance

theorem validateSkill_iff (d : SkillInput) :
    validateSkill d = true ↔ RequiredPresent d := by
  unfold validateSkill RequiredPresent
  simp only [Bool.and_eq_true]
  tauto

/-- **C9.** `addSkill` on a definition missing any of the required
fields (identifier, name, description, category, points, position)
reports failure by returning `false` and leaves the skill map unchanged
(the embedding is total, so no exception escapes); on a definition with
all required fields present it returns `true` and stores the skill —
with fresh completion state and an `unlocked` flag derived from its
prerequisites — under its identifier. -/
theorem addSkill_spec (m : SkillMap) (d : SkillInput) :
    (¬ RequiredPresent d → addSkill m d = (false, m)) ∧
    (RequiredPresent d →
      (addSkill m d).1 = true ∧
      ∃ id, d.skill_id = some id ∧
        mapGet (addSkill m d).2 id = some
          { data := d, completed := false, dateCompleted := none,
            unlocked := isSkillUnlocked m d.prerequisites none }) := by
  constructor
  · intro hmiss
    have hv : validateSkill d = false := by
      cases hval : validateSkill d with
      | false => rfl
      | true => exact absurd ((validateSkill_iff d).mp hval) hmiss
    unfold addSkill
    rw [hv]
    rfl
  · intro hpres
    have hv : validateSkill d = true := (validateSkill_iff d).mpr hpres
    have hid : d.skill_id.isSome = true := hpres.1
    cases hsk : d.skill_id with
    | none => rw [hsk] at hid; exact absurd hid (by simp)
    | some id =>
      refine ⟨?_, id, rfl, ?_⟩
      · simp [addSkill, hv, hsk]
      · simp only [addSkill, hv, hsk, if_true]
        exact mapGet_mapSet_self m id _

/-- Witness for C9: a fully-specified concrete skill is accepted and a
copy with a missing name is rejected without touching the map. -/
theorem addSkill_spec_witness :
    (let good : SkillInput :=
      { skill_id := some "s1", name := some "Skill", description := some "d",
        category := some "c", points := some 5, position := some ⟨100, 200⟩,
        prerequisites := some [], unlocks := some [] }
    let bad : SkillInput := { good with name := none }
    (¬ RequiredPresent bad → addSkill [] bad = (false, [])) ∧
    (RequiredPresent good →
      (addSkill [] good).1 = true ∧
      ∃ id, good.skill_id = some id ∧
        mapGet (addSkill [] good).2 id = some
          { data := good, completed := false, dateCompleted := none,
            unlocked := isSkillUnlocked [] good.prerequisites none })) :=
  ⟨(addSkill_spec [] _).1, (addSkill_spec [] _).2⟩

/-- **C10.** `completeSkill` on an identifier missing from the skill map
or naming a skill whose `unlocked` flag is `false` returns `false` and
returns the map unchanged (so every skill's `completed`,
`dateCompleted` and `unlocked` state is untouched); on an existing
unlocked skill it returns `true`, stores the skill as completed with
the supplied completion date, and re-derives the `unlocked` flag of
every skill via `updateUnlockedSkills`. -/
theorem completeSkill_spec (m : SkillMap) (skillId now : String) :
    (mapGet m skillId = none → completeSkill m skillId now = (false, m)) ∧
    (∀ s, mapGet m skillId = some s → s.unlocked = false →
      completeSkill m skillId now = (false, m)) ∧
    (∀ s, mapGet m skillId = some s → s.unlocked = true →
      completeSkill m skillId now =
        (true, updateUnlockedSkills (mapSet m skillId
          { s with completed := true, dateCompleted := some now })) ∧
      ∃ s', mapGet (completeSkill m skillId now).2 skillId = some s' ∧
        s'.completed = true ∧ s'.dateCompleted = some now) := by
  refine ⟨?_, ?_, ?_⟩
  · intro hnone
    unfold completeSkill
    rw [hnone]
  · intro s hs hunl
    simp [completeSkill, hs, hunl]
  · intro s hs hunl
    have heq : completeSkill m skillId now =
        (true, updateUnlockedSkills (mapSet m skillId
          { s with completed := true, dateCompleted := some now })) := by
      simp [completeSkill, hs, hunl]
    refine ⟨heq, ?_⟩
    have hget : mapGet (mapSet m skillId
        { s with completed := true, dateCompleted := some now }) skillId =
        some { s with completed := true, dateCompleted := some now } :=
      mapGet_mapSet_self m skillId _
    refine ⟨{ { s with completed := true, dateCompleted := some now } with
        unlocked := isSkillUnlocked
          (mapSet m skillId { s with completed := true, dateCompleted := some now })
          s.data.prerequisites none }, ?_, rfl, rfl⟩
    rw [heq]
    simp only
    rw [updateUnlockedSkills_get, hget]
    rfl

/-- Witness for C10: completing an unlocked concrete skill succeeds and
stamps the date; completing a locked one and a missing one both fail. -/
theorem completeSkill_spec_witness :
    (let s : StoredSkill :=
      { data := { skill_id := some "a", name := some "n", description := some "d",
                  category := some "c", points := some 1, position := some ⟨0, 0⟩,
                  prerequisites := some [], unlocks := some [] },
        completed := false, dateCompleted := none, unlocked := true }
    let m : SkillMap := [("a", s)]
    (mapGet m "zz" = none → completeSkill m "zz" "2026-02-03" = (false, m)) ∧
    (completeSkill m "a" "2026-02-03" =
        (true, updateUnlockedSkills (mapSet m "a"
          { s with completed := true, dateCompleted := some "2026-02-03" })) ∧
      ∃ s', mapGet (completeSkill m "a" "2026-02-03").2 "a" = some s' ∧
        s'.completed = true ∧ s'.dateCompleted = some "2026-02-03")) :=
  ⟨(completeSkill_spec _ "zz" "2026-02-03").1,
   (completeSkill_spec _ "a" "2026-02-03").2.2 _ (by decide) (by decide)⟩

/-! ## Minimal D3 force simulation (`js/d3-force-simulation.js`)

`ForceSimulation` keeps `alpha`, decays it geometrically toward
`alphaTarget` on every tick, integrates node velocities, and stops when
`alpha` is no longer above `alphaMin`.  `ForceManyBody` is the pairwise
charge force.  Node coordinates and velocities are rationals; `fx`/`fy`
are `Option ℚ` (`none` standing for JavaScript `null`). -/

/-- A simulation node (`{x, y, vx, vy, fx, fy}`). -/
structure SimNode where
  x : ℚ
  y : ℚ
  vx : ℚ
  vy : ℚ
  fx : Option ℚ
  fy : Option ℚ
deriving DecidableEq, Repr

/-- `node.fx != null && node.fy != null`, the fixed-node test used by
the forces. -/
def nodeFixed (n : SimNode) : Bool :=
  n.fx.isSome && n.fy.isSome

/-- The force-simulation state (scheduling and listeners are side
effects and are not modelled; `stopped` captures `stop()`). -/
structure SimState where
  nodes : List SimNode
  alpha : ℚ
  alphaMin : ℚ
  alphaDecay : ℚ
  alphaTarget : ℚ
  velocityDecay : ℚ
  stopped : Bool
deriving DecidableEq, Repr

/-- One node's position update in `tick`: fixed coordinates pin the
node and zero its velocity, free coordinates get velocity decay then
integration. -/
def integrateNode (vd : ℚ) (n : SimNode) : SimNode :=
  let xvx : ℚ × ℚ :=
    match n.fx with
    | some fx => (fx, 0)
    | none => let vx := n.vx * vd; (n.x + vx, vx)
  let yvy : ℚ × ℚ :=
    match n.fy with
    | some fy => (fy, 0)
    | none => let vy := n.vy * vd; (n.y + vy, vy)
  { n with x := xvx.1, vx := xvx.2, y := yvy.1, vy := yvy.2 }

/-- `ForceSimulation.prototype.tick`: apply each registered force with
the pre-update `alpha`, integrate positions, decay `alpha` toward
`alphaTarget`, and stop (firing end listeners, not modelled) when the
new `alpha` is not above `alphaMin`.  A stopped simulation ignores
ticks. -/
def simTick (forces : List (ℚ → List SimNode → List SimNode))
    (s : SimState) : SimState :=
  if s.stopped then s
  else
    let nodes1 := forces.foldl (fun ns f => f s.alpha ns) s.nodes
    let nodes2 := nodes1.map (integrateNode s.velocityDecay)
    let alphaNew := s.alpha + (s.alphaTarget - s.alpha) * s.alphaDecay
    if s.alphaMin < alphaNew then
      { s with nodes := nodes2, alpha := alphaNew }
    else
      { s with nodes := nodes2, alpha := alphaNew, stopped := true }

/-- The `ForceSimulation` constructor state.  `powVal` is the value the
host's `Math.pow(0.001, 1/300)` returns (the true IEEE-754 value is
irrational in spirit, about `0.9772372`, so it is kept abstract):
`alphaDecay = 1 - powVal`. -/
def initSim (powVal : ℚ) (nodes : List SimNode) : SimState :=
  { nodes := nodes, alpha := 1, alphaMin := 1/1000, alphaDecay := 1 - powVal,
    alphaTarget := 0, velocityDecay := 2/5, stopped := false }

/-- A simulation has finished when `alpha` is not above `alphaMin`
(the tick scheduler then stops and end handlers fire). -/
def simFinished (s : SimState) : Prop :=
  s.alpha ≤ s.alphaMin

instance (s : SimState) : Decidable (simFinished s) := by
  unfold simFinished
  infer_instance

theorem simTick_config (forces : List (ℚ → List SimNode → List SimNode))
    (s : SimState) :
    (simTick forces s).alphaMin = s.alphaMin ∧
    (simTick forces s).alphaDecay = s.alphaDecay ∧
    (simTick forces s).alphaTarget = s.alphaTarget := by
  unfold simTick
  by_cases h : s.stopped
  · simp [h]
  · simp only [h, Bool.false_eq_true, if_false]
    split
    · simp
    · simp

theorem simTick_stopped (forces : List (ℚ → List SimNode → List SimNode))
    (s : SimState) (h : s.stopped = true) : simTick forces s = s := by
  unfold simTick
  rw [h]
  rfl

theorem simTick_alpha_of_running (forces : List (ℚ → List SimNode → List SimNode))
    (s : SimState) (h : s.stopped = false) :
    (simTick forces s).alpha = s.alpha + (s.alphaTarget - s.alpha) * s.alphaDecay := by
  unfold simTick
  rw [h]
  simp only [Bool.false_eq_true, if_false]
  split <;> rfl

theorem simTick_stopped_iff (forces : List (ℚ → List SimNode → List SimNode))
    (s : SimState) (h : s.stopped = false) :
    (simTick forces s).stopped =
      !decide (s.alphaMin < s.alpha + (s.alphaTarget - s.alpha) * s.alphaDecay) := by
  unfold simTick
  rw [h]
  simp only [Bool.false_eq_true, if_false]
  split <;> rename_i hlt
  · simp [hlt]
  · simp [hlt]

/-- Invariant for the default-constructed simulation: configuration is
preserved, and while the simulation is running its alpha is exactly
`powVal ^ n`; once it stops its alpha is at most `alphaMin`. -/
theorem simTick_iterate_invariant (q : ℚ)
    (forces : List (ℚ → List SimNode → List SimNode))
    (nodes : List SimNode) (n : ℕ) :
    (((simTick forces)^[n] (initSim q nodes)).alphaMin = 1/1000 ∧
     ((simTick forces)^[n] (initSim q nodes)).alphaDecay = 1 - q ∧
     ((simTick forces)^[n] (initSim q nodes)).alphaTarget = 0) ∧
    ((((simTick forces)^[n] (initSim q nodes)).stopped = false →
        ((simTick forces)^[n] (initSim q nodes)).alpha = q ^ n) ∧
     (((simTick forces)^[n] (initSim q nodes)).stopped = true →
        ((simTick forces)^[n] (initSim q nodes)).alpha ≤ 1/1000)) := by
  induction n with
  | zero =>
    refine ⟨⟨rfl, rfl, rfl⟩, fun _ => by simp [initSim], fun h => ?_⟩
    exact absurd h (by simp [initSim])
  | succ n ih =>
    obtain ⟨⟨hmin, hdec, htar⟩, hrun, hstop⟩ := ih
    set t := (simTick forces)^[n] (initSim q nodes) with ht
    have hiter : (simTick forces)^[n + 1] (initSim q nodes) = simTick forces t := by
      rw [Function.iterate_succ_apply']
    rw [hiter]
    have hcfg := simTick_config forces t
    refine ⟨⟨hcfg.1.trans hmin, hcfg.2.1.trans hdec, hcfg.2.2.trans htar⟩, ?_, ?_⟩
    · intro hns
      cases hts : t.stopped with
      | true => rw [simTick_stopped forces t hts] at hns; rw [hts] at hns; cases hns
      | false =>
        have halpha := simTick_alpha_of_running forces t hts
        rw [hdec, htar, hrun hts] at halpha
        rw [halpha]
        ring
    · intro hs
      cases hts : t.stopped with
      | true =>
        rw [simTick_stopped forces t hts]
        exact hstop hts
      | false =>
        have halpha := simTick_alpha_of_running forces t hts
        rw [hdec, htar, hrun hts] at halpha
        have hsi := simTick_stopped_iff forces t hts
        rw [hdec, htar, hrun hts, hs] at hsi
        have hdecide : decide (t.alphaMin < q ^ n + (0 - q ^ n) * (1 - q)) = false := by
          cases hd : decide (t.alphaMin < q ^ n + (0 - q ^ n) * (1 - q)) with
          | false => rfl
          | true => rw [hd] at hsi; simp at hsi
        have hle : q ^ n + (0 - q ^ n) * (1 - q) ≤ t.alphaMin :=
          not_lt.mp (of_decide_eq_false hdecide)
        rw [halpha]
        exact hle.trans (le_of_eq hmin)

/-- The key numeric fact about the default decay rate: any rational at
most `0.9773` — in particular the IEEE-754 value of
`Math.pow(0.001, 1/300) ≈ 0.9772372` — drops below `0.001` within 301
squarings-free multiplications. -/
theorem default_decay_bound (q : ℚ) (h0 : 0 ≤ q) (h1 : q ≤ 9773/10000) :
    q ^ 301 ≤ 1/1000 := by
  have hpow : q ^ 301 ≤ (9773/10000 : ℚ) ^ 301 := pow_le_pow_left₀ h0 h1 301
  refine hpow.trans ?_
  rw [div_pow, div_le_div_iff₀ (by positivity) (by norm_num)]
  norm_num

/-- **C7.** The simulation's alpha decays geometrically toward
`alphaTarget` (default 0): each running tick multiplies the offset
`alpha − alphaTarget` by `1 − alphaDecay`.  With the constructor's
decay rate `1 − Math.pow(0.001, 1/300)` — any returned value of that
power at most `0.9773` qualifies, and the IEEE-754 value
`≈ 0.9772372` does — the simulation is finished (alpha not above the
minimum threshold `0.001`, so ticking stops and end handlers fire)
after at most 301 ≈ 300 ticks; hence a synchronous tick loop always
terminates. -/
theorem simulation_alpha_decay_and_termination :
    (∀ (forces : List (ℚ → List SimNode → List SimNode)) (s : SimState),
      s.stopped = false →
      (simTick forces s).alpha - s.alphaTarget =
        (s.alpha - s.alphaTarget) * (1 - s.alphaDecay)) ∧
    (∀ (q : ℚ) (forces : List (ℚ → List SimNode → List SimNode))
      (nodes : List SimNode), 0 ≤ q → q ≤ 9773/10000 →
      simFinished ((simTick forces)^[301] (initSim q nodes))) := by
  constructor
  · intro forces s h
    rw [simTick_alpha_of_running forces s h]
    ring
  · intro q forces nodes h0 h1
    obtain ⟨⟨hmin, _, _⟩, hrun, hstop⟩ :=
      simTick_iterate_invariant q forces nodes 301
    unfold simFinished
    rw [hmin]
    cases hts : ((simTick forces)^[301] (initSim q nodes)).stopped with
    | true => exact hstop hts
    | false =>
      rw [hrun hts]
      exact default_decay_bound q h0 h1

/-- Witness for C7: a concrete running state for the step law, and the
decay value `0.9773` itself for the 301-tick termination bound. -/
theorem simulation_alpha_decay_and_termination_witness :
    (let s : SimState :=
      { nodes := [], alpha := 1/2, alphaMin := 1/1000, alphaDecay := 1/10,
        alphaTarget := 0, velocityDecay := 2/5, stopped := false }
    (simTick [] s).alpha - s.alphaTarget =
      (s.alpha - s.alphaTarget) * (1 - s.alphaDecay)) ∧
    simFinished ((simTick ([] : List (ℚ → List SimNode → List SimNode)))^[301]
      (initSim (9773/10000) [])) :=
  ⟨simulation_alpha_decay_and_termination.1 [] _ rfl,
   simulation_alpha_decay_and_termination.2 (9773/10000) [] [] (by norm_num)
     (le_refl _)⟩

/-! ### `ForceManyBody` (charge / repulsion force) -/

/-- Configuration closed over by `ForceManyBody`: `strength`,
`distanceMin2` and `distanceMax2` (`none` standing for `Infinity`). -/
structure ManyBodyCfg where
  strength : ℚ
  distanceMin2 : ℚ
  distanceMax2 : Option ℚ
deriving DecidableEq, Repr

/-- The defaults set by the `ForceManyBody` factory. -/
def defaultManyBody : ManyBodyCfg :=
  { strength := -30, distanceMin2 := 1, distanceMax2 := none }

/-- `distance2 < distanceMax2`, with `Infinity` as absent bound. -/
def mbInRange (cfg : ManyBodyCfg) (d2 : ℚ) : Bool :=
  match cfg.distanceMax2 with
  | none => true
  | some m => decide (d2 < m)

/-- The inner-loop body of `ForceManyBody.force` for the index pair
`(i, j)`: compute the pair's repulsion and add it to each endpoint's
velocity unless that endpoint is fixed.  `sq` is the `Math.sqrt`
oracle (the source also computes `Math.sqrt(distance2)` into a local
`distance` that it never reads; that dead binding is omitted). -/
def manyBodyPair (cfg : ManyBodyCfg) (sq : ℚ → ℚ) (alpha : ℚ)
    (nodes : List SimNode) (i j : ℕ) : List SimNode :=
  match nodes[i]?, nodes[j]? with
  | some n1, some n2 =>
    let dx := n2.x - n1.x
    let dy := n2.y - n1.y
    let d2 := dx * dx + dy * dy
    if mbInRange cfg d2 then
      let d2a := if d2 < cfg.distanceMin2 then sq (cfg.distanceMin2 * d2) else d2
      let k := cfg.strength * alpha / d2a
      let dxk := dx * k
      let dyk := dy * k
      let nodesA :=
        if nodeFixed n1 then nodes
        else nodes.set i { n1 with vx := n1.vx - dxk, vy := n1.vy - dyk }
      if nodeFixed n2 then nodesA
      else nodesA.set j { n2 with vx := n2.vx + dxk, vy := n2.vy + dyk }
    else nodes
  | _, _ => nodes

/-- `ForceManyBody.force(alpha)`: iterate over ordered index pairs
`i < j`, skipping the whole inner loop when the outer node `i` is
fixed. -/
def forceManyBody (cfg : ManyBodyCfg) (sq : ℚ → ℚ) (alpha : ℚ)
    (nodes : List SimNode) : List SimNode :=
  (List.range nodes.length).foldl
    (fun ns i =>
      match ns[i]? with
      | some n1 =>
        if nodeFixed n1 then ns
        else
          ((List.range nodes.length).drop (i + 1)).foldl
            (fun ns2 j => manyBodyPair cfg sq alpha ns2 i j) ns
      | none => ns)
    nodes

theorem manyBodyPair_preserves_fixed (cfg : ManyBodyCfg) (sq : ℚ → ℚ)
    (alpha : ℚ) (ns : List SimNode) (i j k : ℕ) (n : SimNode)
    (hk : ns[k]? = some n) (hf : nodeFixed n = true) :
    (manyBodyPair cfg sq alpha ns i j)[k]? = some n := by
  have hgen : ∀ (l : List SimNode) (idx : ℕ) (m v : SimNode),
      l[k]? = some n → (idx = k → m = n) →
      (if nodeFixed m then l else l.set idx v)[k]? = some n := by
    intro l idx m v hl himp
    by_cases hik : idx = k
    · rw [himp hik, hf]
      exact hl
    · by_cases hfm : nodeFixed m
      · rw [if_pos hfm]
        exact hl
      · rw [if_neg hfm, List.getElem?_set_ne hik]
        exact hl
  unfold manyBodyPair
  cases hi : ns[i]? with
  | none => simp [hk]
  | some n1 =>
    cases hj : ns[j]? with
    | none => simp [hk]
    | some n2 =>
      simp only
      split
      · refine hgen _ j n2 _ ?_ ?_
        · refine hgen ns i n1 _ hk ?_
          intro h
          subst h
          rw [hi] at hk
          exact Option.some.inj hk
        · intro h
          subst h
          rw [hj] at hk
          exact Option.some.inj hk
      · exact hk

/-- A concrete stand-in for `Math.sqrt` used by witnesses and
counterexamples: exact on perfect squares of rationals (where the
IEEE-754 `Math.sqrt` is also exact), a floor-style approximation
elsewhere, and 0 on nonpositive input. -/
def ratSqrt (q : ℚ) : ℚ :=
  if q ≤ 0 then 0 else (Nat.sqrt q.num.toNat : ℚ) / (Nat.sqrt q.den : ℚ)

/-- **C8 (amended).** In `ForceManyBody`, a node whose fixed
coordinates are both set is never modified by the force: it receives no
velocity from any pair.  (The original claim's second half fails: a
fixed node exerts repulsion only on unfixed nodes that precede it in
the node array, because the outer loop skips every pair whose
lower-indexed member is fixed — see the counterexample.) -/
theorem forceManyBody_preserves_fixed (cfg : ManyBodyCfg) (sq : ℚ → ℚ)
    (alpha : ℚ) (nodes : List SimNode) (k : ℕ) (n : SimNode)
    (hk : nodes[k]? = some n) (hf : nodeFixed n = true) :
    (forceManyBody cfg sq alpha nodes)[k]? = some n := by
  unfold forceManyBody
  have hstep : ∀ (idx : List ℕ) (ns : List SimNode), ns[k]? = some n →
      (idx.foldl
        (fun ns i =>
          match ns[i]? with
          | some n1 =>
            if nodeFixed n1 then ns
            else
              ((List.range nodes.length).drop (i + 1)).foldl
                (fun ns2 j => manyBodyPair cfg sq alpha ns2 i j) ns
          | none => ns)
        ns)[k]? = some n := by
    intro idx
    induction idx with
    | nil => intro ns h; exact h
    | cons i rest ih =>
      intro ns h
      refine ih _ ?_
      cases hi : ns[i]? with
      | none => simpa [hi] using h
      | some n1 =>
        simp only [hi]
        by_cases hf1 : nodeFixed n1
        · rw [if_pos hf1]; exact h
        · rw [if_neg hf1]
          have hinner : ∀ (js : List ℕ) (ns2 : List SimNode), ns2[k]? = some n →
              (js.foldl (fun ns2 j => manyBodyPair cfg sq alpha ns2 i j) ns2)[k]?
                = some n := by
            intro js
            induction js with
            | nil => intro ns2 h2; exact h2
            | cons j js ihj =>
              intro ns2 h2
              exact ihj _ (manyBodyPair_preserves_fixed cfg sq alpha ns2 i j k n h2 hf)
          exact hinner _ ns h
  exact hstep (List.range nodes.length) nodes hk

/-- **C8 (counterexample).** With the default configuration, a fixed
node at the origin paired with an unfixed node 10 units away exerts no
repulsion at all when the fixed node has the lower index — the pass
returns the nodes unchanged — although with the order swapped the very
same geometry pushes the unfixed node (velocity −3), refuting "it
still exerts repulsion on every unfixed node it is paired with". -/
theorem forceManyBody_fixed_counterexample :
    forceManyBody defaultManyBody ratSqrt 1
        [{ x := 0, y := 0, vx := 0, vy := 0, fx := some 0, fy := some 0 },
         { x := 10, y := 0, vx := 0, vy := 0, fx := none, fy := none }] =
      [{ x := 0, y := 0, vx := 0, vy := 0, fx := some 0, fy := some 0 },
       { x := 10, y := 0, vx := 0, vy := 0, fx := none, fy := none }] ∧
    forceManyBody defaultManyBody ratSqrt 1
        [{ x := 10, y := 0, vx := 0, vy := 0, fx := none, fy := none },
         { x := 0, y := 0, vx := 0, vy := 0, fx := some 0, fy := some 0 }] =
      [{ x := 10, y := 0, vx := -3, vy := 0, fx := none, fy := none },
       { x := 0, y := 0, vx := 0, vy := 0, fx := some 0, fy := some 0 }] := by
  constructor
  · rfl
  · norm_num [forceManyBody, manyBodyPair, mbInRange, nodeFixed,
      defaultManyBody, List.range_succ]

/-- Witness for C8: the concrete fixed node of the counterexample
passes through the force unchanged. -/
theorem forceManyBody_preserves_fixed_witness :
    (forceManyBody defaultManyBody ratSqrt 1
        [{ x := 0, y := 0, vx := 0, vy := 0, fx := some 0, fy := some 0 },
         { x := 10, y := 0, vx := 0, vy := 0, fx := none, fy := none }])[0]? =
      some { x := 0, y := 0, vx := 0, vy := 0, fx := some 0, fy := some 0 } :=
  forceManyBody_preserves_fixed defaultManyBody ratSqrt 1
    [{ x := 0, y := 0, vx := 0, vy := 0, fx := some 0, fy := some 0 },
     { x := 10, y := 0, vx := 0, vy := 0, fx := none, fy := none }] 0
    { x := 0, y := 0, vx := 0, vy := 0, fx := some 0, fy := some 0 } rfl rfl

/-! ## The `SkillTree` layout engine (`js/skill-tree.js`)

Configuration fields are the constants set in the `SkillTree`
constructor.  The `Oracle` record carries the `Math` library functions
the layout uses; theorems quantify over it unless a concrete value is
needed. -/

/-- Layout settings of the `SkillTree` constructor. -/
structure LayoutCfg where
  nodeRadius : ℚ
  minDistance : ℚ
  connectionCurve : ℚ
  forceStrength : ℚ
  canvasWidth : ℚ
  canvasHeight : ℚ
  maxIterations : ℕ
deriving DecidableEq, Repr

/-- The constructor's values: `nodeRadius = 30`, `minDistance = 80`,
`connectionCurve = 0.3`, `forceStrength = 5`, canvas `1600 × 1200`,
`maxIterations = 100`. -/
def defaultLayoutCfg : LayoutCfg :=
  { nodeRadius := 30, minDistance := 80, connectionCurve := 3/10,
    forceStrength := 5, canvasWidth := 1600, canvasHeight := 1200,
    maxIterations := 100 }

/-- The `Math` functions the layout engine calls.  `pow` is only used
with the fractional exponents 1.5 and 0.7 (squares are embedded as
products, which is what IEEE-754 `Math.pow` computes exactly). -/
structure Oracle where
  sqrt : ℚ → ℚ
  pow : ℚ → ℚ → ℚ
  cos : ℚ → ℚ
  sin : ℚ → ℚ
  pi : ℚ

/-- A skill as the layout engine sees it. -/
structure LSkill where
  skill_id : String
  position : Pos
  unlocks : List String
deriving DecidableEq, Repr

/-- `Math.max(lo, Math.min(hi, v))`, the clamping pattern used
throughout the layout code. -/
def clampQ (lo hi v : ℚ) : ℚ := max lo (min hi v)

theorem clampQ_mem (lo hi v : ℚ) (h : lo ≤ hi) :
    lo ≤ clampQ lo hi v ∧ clampQ lo hi v ≤ hi := by
  unfold clampQ
  constructor
  · exact le_max_left lo _
  · exact max_le h (min_le_left hi v)

/-- `enhancedMinDistance = this.minDistance * 1.5`. -/
def enhancedMinDistance (cfg : LayoutCfg) : ℚ := cfg.minDistance * (3/2)

/-- `maxForceIterations = this.maxIterations * 2`. -/
def maxForceIterations (cfg : LayoutCfg) : ℕ := cfg.maxIterations * 2

/-! ### Spatial grid (`createSpatialGrid` / `getNearbySkillsFromGrid`) -/

/-- The spatial-hash grid: cell coordinates to skills, in insertion
order (the source keys a `Map` by the string `"cx,cy"`). -/
def SpatialGrid : Type := List ((ℤ × ℤ) × List LSkill)

def gridGet (g : SpatialGrid) (key : ℤ × ℤ) : Option (List LSkill) :=
  match g with
  | [] => none
  | (k, l) :: t => if k = key then some l else gridGet t key

def gridInsert (g : SpatialGrid) (key : ℤ × ℤ) (s : LSkill) : SpatialGrid :=
  match g with
  | [] => [(key, [s])]
  | (k, l) :: t =>
    if k = key then (k, l ++ [s]) :: t else (k, l) :: gridInsert t key s

/-- `createSpatialGrid(skills, cellSize)`: integer cell size
`Math.ceil(cellSize)`, cell coordinates by floored division. -/
def createSpatialGrid (skills : List LSkill) (cellSize : ℚ) :
    SpatialGrid × ℤ :=
  let cellSizeInt : ℤ := ⌈cellSize⌉
  (skills.foldl
    (fun g s =>
      gridInsert g
        (⌊s.position.x / (cellSizeInt : ℚ)⌋, ⌊s.position.y / (cellSizeInt : ℚ)⌋) s)
    [], cellSizeInt)

/-- The ascending run `-sc, …, sc` of cell offsets. -/
def cellOffsets (sc : ℤ) : List ℤ :=
  (List.range (2 * sc + 1).toNat).map fun k => (k : ℤ) - sc

/-- `getNearbySkillsFromGrid(skill, spatialGrid, searchRadius)`: walk
the neighbouring cells and keep the other skills within the search
radius (the source squares the coordinate differences with
`Math.pow(·, 2)`). -/
def getNearbySkillsFromGrid (O : Oracle) (s : LSkill) (grid : SpatialGrid)
    (cellSize : ℤ) (searchRadius : ℚ) : List LSkill :=
  let searchCells : ℤ := ⌈searchRadius / (cellSize : ℚ)⌉
  let centerCellX : ℤ := ⌊s.position.x / (cellSize : ℚ)⌋
  let centerCellY : ℤ := ⌊s.position.y / (cellSize : ℚ)⌋
  (cellOffsets searchCells).foldl
    (fun acc dx =>
      (cellOffsets searchCells).foldl
        (fun acc2 dy =>
          match gridGet grid (centerCellX + dx, centerCellY + dy) with
          | some cellSkills =>
            acc2 ++ cellSkills.filter fun o =>
              decide (¬ s.skill_id = o.skill_id) &&
                decide (O.sqrt
                  ((s.position.x - o.position.x) * (s.position.x - o.position.x) +
                   (s.position.y - o.position.y) * (s.position.y - o.position.y))
                  ≤ searchRadius)
          | none => acc2)
        acc)
    []

/-! ### One iteration of `applyEnhancedForceDirectedLayout` -/

/-- Force vectors accumulated per skill id (`forces` map). -/
def Forces : Type := List (String × Pos)

/-- `forces.get(id).x += dx; forces.get(id).y += dy` — the map is
pre-seeded with every skill id, so a missing id is a no-op. -/
def mapAddForce (fs : Forces) (k : String) (dx dy : ℚ) : Forces :=
  match fs with
  | [] => []
  | (k', v) :: t =>
    if k' = k then (k', ⟨v.x + dx, v.y + dy⟩) :: t
    else (k', v) :: mapAddForce t k dx dy

/-- Accumulator of the pairwise-repulsion loop: the forces map, the
`hasOverlaps` flag, `totalOverlapForce`, and the cursor into the
`Math.random()` stream. -/
structure PairAcc where
  forces : Forces
  hasOverlaps : Bool
  total : ℚ
  rngIdx : ℕ

/-- The body of the repulsion double loop for the pair
`(skill1, skill2)` (the source returns early when
`skill1.skill_id >= skill2.skill_id`).  Coincident skills
(`distance === 0`) draw one value from the `Math.random()` stream to
pick a dispersion angle; all other overlapping pairs get the
non-linear repulsion and contribute to `totalOverlapForce`. -/
def pairStep (cfg : LayoutCfg) (O : Oracle) (rng : ℕ → ℚ)
    (s1 s2 : LSkill) (acc : PairAcc) : PairAcc :=
  if s1.skill_id < s2.skill_id then
    let dx := s2.position.x - s1.position.x
    let dy := s2.position.y - s1.position.y
    let distance := O.sqrt (dx * dx + dy * dy)
    if distance < enhancedMinDistance cfg then
      if distance = 0 then
        let randomAngle := rng acc.rngIdx * O.pi * 2
        let separationForce := cfg.forceStrength * 2
        { forces :=
            mapAddForce
              (mapAddForce acc.forces s1.skill_id
                (-(O.cos randomAngle * separationForce))
                (-(O.sin randomAngle * separationForce)))
              s2.skill_id
              (O.cos randomAngle * separationForce)
              (O.sin randomAngle * separationForce),
          hasOverlaps := true, total := acc.total, rngIdx := acc.rngIdx + 1 }
      else
        let overlapAmount := enhancedMinDistance cfg - distance
        let fStrength := cfg.forceStrength * O.pow (overlapAmount / distance) (3/2)
        let forceX := dx / distance * fStrength
        let forceY := dy / distance * fStrength
        { forces :=
            mapAddForce
              (mapAddForce acc.forces s1.skill_id (-forceX) (-forceY))
              s2.skill_id forceX forceY,
          hasOverlaps := true, total := acc.total + (|forceX| + |forceY|),
          rngIdx := acc.rngIdx }
    else acc
  else acc

/-- The repulsion phase: for every skill, fold `pairStep` over its
grid neighbourhood. -/
def repulsionPhase (cfg : LayoutCfg) (O : Oracle) (rng : ℕ → ℚ)
    (skills : List LSkill) (grid : SpatialGrid) (cellSize : ℤ)
    (acc0 : PairAcc) : PairAcc :=
  skills.foldl
    (fun acc s1 =>
      (getNearbySkillsFromGrid O s1 grid cellSize
          (enhancedMinDistance cfg * 2)).foldl
        (fun a s2 => pairStep cfg O rng s1 s2 a) acc)
    acc0

/-- The connection-attraction phase: for each `unlocks` edge whose
child exists, pull the endpoints together when they are more than
3 × the enhanced minimum distance apart. -/
def attractionPhase (cfg : LayoutCfg) (O : Oracle) (skills : List LSkill)
    (fs0 : Forces) : Forces :=
  skills.foldl
    (fun fs skill =>
      skill.unlocks.foldl
        (fun fs2 childId =>
          match skills.find? (fun t => t.skill_id == childId) with
          | some childSkill =>
            let dx := childSkill.position.x - skill.position.x
            let dy := childSkill.position.y - skill.position.y
            let distance := O.sqrt (dx * dx + dy * dy)
            let maxConnectionDistance := enhancedMinDistance cfg * 3
            if maxConnectionDistance < distance then
              let attractionStrength :=
                (1/20) * min 1 (distance / maxConnectionDistance - 1)
              let forceX := dx / distance * attractionStrength
              let forceY := dy / distance * attractionStrength
              mapAddForce
                (mapAddForce fs2 skill.skill_id forceX forceY)
                childId (-forceX) (-forceY)
            else fs2
          | none => fs2)
        fs)
    fs0

/-- `adaptiveDamping = Math.max(0.05, 1.0 - Math.pow(progressRatio, 0.7))`
with `progressRatio = iteration / maxForceIterations`. -/
def adaptiveDamping (cfg : LayoutCfg) (O : Oracle) (iteration : ℕ) : ℚ :=
  max (1/20) (1 - O.pow ((iteration : ℚ) / ((maxForceIterations cfg : ℕ) : ℚ)) (7/10))

/-- The force-magnitude cap (`maxForce = 20`) applied before damping. -/
def capForce (O : Oracle) (f : Pos) : Pos :=
  let forceMagnitude := O.sqrt (f.x * f.x + f.y * f.y)
  if 20 < forceMagnitude then
    ⟨f.x / forceMagnitude * 20, f.y / forceMagnitude * 20⟩
  else f

/-- Per-skill position update of the apply phase: cap the accumulated
force, integrate it scaled by the damping factor, and clamp into the
canvas with padding `nodeRadius * 2`. -/
def applyForceToSkill (cfg : LayoutCfg) (O : Oracle) (damping : ℚ)
    (forces : Forces) (s : LSkill) : LSkill :=
  let force := (mapGet forces s.skill_id).getD ⟨0, 0⟩
  let f := capForce O force
  let padding := cfg.nodeRadius * 2
  { s with position :=
      ⟨clampQ padding (cfg.canvasWidth - padding) (s.position.x + f.x * damping),
       clampQ padding (cfg.canvasHeight - padding) (s.position.y + f.y * damping)⟩ }

/-- The apply phase over all skills. -/
def applyPhase (cfg : LayoutCfg) (O : Oracle) (iteration : ℕ)
    (forces : Forces) (skills : List LSkill) : List LSkill :=
  skills.map (applyForceToSkill cfg O (adaptiveDamping cfg O iteration) forces)

/-- Result of one outer iteration of the enhanced force layout. -/
structure IterResult where
  skills : List LSkill
  hasOverlaps : Bool
  totalOverlapForce : ℚ
  rngIdx : ℕ

/-- One full iteration of `applyEnhancedForceDirectedLayout`: zero the
forces, build the spatial grid, run the repulsion and attraction
phases, then apply the damped, capped forces with bounds clamping. -/
def iterationStep (cfg : LayoutCfg) (O : Oracle) (rng : ℕ → ℚ)
    (iteration rngIdx : ℕ) (skills : List LSkill) : IterResult :=
  let forces0 : Forces := skills.map fun s => (s.skill_id, ⟨0, 0⟩)
  let gridPair := createSpatialGrid skills (enhancedMinDistance cfg * 2)
  let acc := repulsionPhase cfg O rng skills gridPair.1 gridPair.2
    { forces := forces0, hasOverlaps := false, total := 0, rngIdx := rngIdx }
  let forces1 := attractionPhase cfg O skills acc.forces
  { skills := applyPhase cfg O iteration forces1 skills,
    hasOverlaps := acc.hasOverlaps, totalOverlapForce := acc.total,
    rngIdx := acc.rngIdx }

/-- The outer `for` loop of `applyEnhancedForceDirectedLayout` with its
two-part break condition, returning the final skills, the number of
iterations that ran, and the final random-stream cursor. -/
def forceLoop (cfg : LayoutCfg) (O : Oracle) (rng : ℕ → ℚ) :
    ℕ → ℕ → ℕ → List LSkill → List LSkill × ℕ × ℕ
  | 0, _, rngIdx, skills => (skills, 0, rngIdx)
  | fuel + 1, iteration, rngIdx, skills =>
    let r := iterationStep cfg O rng iteration rngIdx skills
    if (!r.hasOverlaps) ||
        (decide (20 < iteration) && decide (r.totalOverlapForce < 1/10)) then
      (r.skills, 1, r.rngIdx)
    else
      let rest := forceLoop cfg O rng fuel (iteration + 1) r.rngIdx r.skills
      (rest.1, rest.2.1 + 1, rest.2.2)

/-- `applyEnhancedForceDirectedLayout()`: run the loop for at most
`maxIterations * 2` iterations starting from iteration 0. -/
def applyEnhancedForceDirectedLayout (cfg : LayoutCfg) (O : Oracle)
    (rng : ℕ → ℚ) (skills : List LSkill) : List LSkill × ℕ × ℕ :=
  forceLoop cfg O rng (maxForceIterations cfg) 0 0 skills

/-! ### Termination and break conditions of the collision pass (C4) -/

/-- The overlap test the repulsion loop applies to an ordered pair:
processed order (`skill1.skill_id < skill2.skill_id`) and grid
distance below the enhanced minimum distance. -/
def overlapB (cfg : LayoutCfg) (O : Oracle) (s1 s2 : LSkill) : Bool :=
  decide (s1.skill_id < s2.skill_id) &&
    decide (O.sqrt
      ((s2.position.x - s1.position.x) * (s2.position.x - s1.position.x) +
       (s2.position.y - s1.position.y) * (s2.position.y - s1.position.y)) <
      enhancedMinDistance cfg)

/-- Whether some pair examined by an iteration (a skill and a grid
neighbour, in processed order) is closer than the enhanced minimum
distance. -/
def overlapPairFound (cfg : LayoutCfg) (O : Oracle) (skills : List LSkill) : Bool :=
  let gridPair := createSpatialGrid skills (enhancedMinDistance cfg * 2)
  skills.any fun s1 =>
    (getNearbySkillsFromGrid O s1 gridPair.1 gridPair.2
        (enhancedMinDistance cfg * 2)).any (overlapB cfg O s1)

theorem pairStep_hasOverlaps (cfg : LayoutCfg) (O : Oracle) (rng : ℕ → ℚ)
    (s1 s2 : LSkill) (acc : PairAcc) :
    (pairStep cfg O rng s1 s2 acc).hasOverlaps =
      (acc.hasOverlaps || overlapB cfg O s1 s2) := by
  unfold pairStep overlapB
  by_cases hlt : s1.skill_id < s2.skill_id
  · rw [if_pos hlt]
    by_cases hdist : O.sqrt
        ((s2.position.x - s1.position.x) * (s2.position.x - s1.position.x) +
         (s2.position.y - s1.position.y) * (s2.position.y - s1.position.y)) <
        enhancedMinDistance cfg
    · rw [if_pos hdist]
      split
      · simp [hlt, hdist]
      · simp [hlt, hdist]
    · rw [if_neg hdist]
      simp [hlt, hdist]
  · rw [if_neg hlt]
    simp [hlt]

theorem pairFold_hasOverlaps (cfg : LayoutCfg) (O : Oracle) (rng : ℕ → ℚ)
    (s1 : LSkill) (l : List LSkill) (acc : PairAcc) :
    ((l.foldl (fun a s2 => pairStep cfg O rng s1 s2 a) acc).hasOverlaps) =
      (acc.hasOverlaps || l.any (overlapB cfg O s1)) := by
  induction l generalizing acc with
  | nil => simp
  | cons s2 t ih =>
    simp only [List.foldl_cons, List.any_cons]
    rw [ih, pairStep_hasOverlaps, Bool.or_assoc]

theorem repulsionPhase_hasOverlaps (cfg : LayoutCfg) (O : Oracle)
    (rng : ℕ → ℚ) (skills : List LSkill) (grid : SpatialGrid) (cellSize : ℤ)
    (acc0 : PairAcc) :
    (repulsionPhase cfg O rng skills grid cellSize acc0).hasOverlaps =
      (acc0.hasOverlaps || skills.any fun s1 =>
        (getNearbySkillsFromGrid O s1 grid cellSize
            (enhancedMinDistance cfg * 2)).any (overlapB cfg O s1)) := by
  unfold repulsionPhase
  induction skills generalizing acc0 with
  | nil => simp
  | cons s1 t ih =>
    simp only [List.foldl_cons, List.any_cons]
    rw [ih, pairFold_hasOverlaps, Bool.or_assoc]

theorem iterationStep_hasOverlaps (cfg : LayoutCfg) (O : Oracle)
    (rng : ℕ → ℚ) (iteration rngIdx : ℕ) (skills : List LSkill) :
    (iterationStep cfg O rng iteration rngIdx skills).hasOverlaps =
      overlapPairFound cfg O skills := by
  unfold iterationStep overlapPairFound
  dsimp only
  rw [repulsionPhase_hasOverlaps]
  simp

theorem forceLoop_count_le (cfg : LayoutCfg) (O : Oracle) (rng : ℕ → ℚ)
    (fuel : ℕ) : ∀ (iteration rngIdx : ℕ) (skills : List LSkill),
    (forceLoop cfg O rng fuel iteration rngIdx skills).2.1 ≤ fuel := by
  induction fuel with
  | zero => intro it idx s; simp [forceLoop]
  | succ n ih =>
    intro it idx s
    unfold forceLoop
    dsimp only
    split
    · simp
    · simpa using Nat.succ_le_succ (ih (it + 1) _ _)

/-- **C4.** The collision-resolution pass always terminates: it runs at
most the fixed ceiling of `maxIterations * 2` iterations regardless of
residual overlaps, an iteration's `hasOverlaps` flag is set exactly
when the iteration examined some skill pair closer than the enhanced
minimum distance, and when an iteration finds no such pair the loop
breaks immediately — that iteration is the only one that runs from
that point on. -/
theorem collision_pass_terminates (cfg : LayoutCfg) (O : Oracle)
    (rng : ℕ → ℚ) (fuel iteration rngIdx : ℕ) (skills : List LSkill) :
    ((applyEnhancedForceDirectedLayout cfg O rng skills).2.1 ≤
      maxForceIterations cfg) ∧
    ((iterationStep cfg O rng iteration rngIdx skills).hasOverlaps =
      overlapPairFound cfg O skills) ∧
    (overlapPairFound cfg O skills = false →
      (forceLoop cfg O rng (fuel + 1) iteration rngIdx skills).2.1 = 1) := by
  refine ⟨forceLoop_count_le cfg O rng _ 0 0 skills, 
    iterationStep_hasOverlaps cfg O rng iteration rngIdx skills, ?_⟩
  intro hno
  have hflag : (iterationStep cfg O rng iteration rngIdx skills).hasOverlaps = false :=
    (iterationStep_hasOverlaps cfg O rng iteration rngIdx skills).trans hno
  unfold forceLoop
  dsimp only
  rw [hflag]
  simp

/-- A concrete oracle for witnesses and counterexamples: exact rational
square root on perfect squares, a table for the cosine/sine values
actually probed (`cos 0 = 1`, `sin 0 = 0`, zero/one elsewhere), the
identity-in-base stand-in for fractional powers, and a rational `π`. -/
def exOracle : Oracle :=
  { sqrt := ratSqrt, pow := fun b _ => b,
    cos := fun q => if q = 0 then 1 else 0,
    sin := fun q => if q = 0 then 0 else 1,
    pi := 157/50 }

/-- Witness for C4: on an empty skill list no pair is found, so the
loop runs exactly one iteration, and the full pass respects the
iteration ceiling. -/
theorem collision_pass_terminates_witness :
    ((applyEnhancedForceDirectedLayout defaultLayoutCfg exOracle
        (fun _ => 0) []).2.1 ≤ maxForceIterations defaultLayoutCfg) ∧
    (forceLoop defaultLayoutCfg exOracle (fun _ => 0) (0 + 1) 0 0 []).2.1 = 1 :=
  ⟨(collision_pass_terminates defaultLayoutCfg exOracle (fun _ => 0) 0 0 0 []).1,
   (collision_pass_terminates defaultLayoutCfg exOracle (fun _ => 0) 0 0 0 []).2.2
     rfl⟩

/-- **C5.** In each iteration of the collision pass, the apply phase
moves every skill by its accumulated force, first capped at the fixed
maximum magnitude 20 and only then scaled by the adaptive damping
factor `max(0.05, 1 − progress^0.7)` with `progress` the fraction
`iteration / maxForceIterations` of the iteration budget (0.05 = 1/20,
0.7 = 7/10).  Whenever the square-root oracle is exact at the force's
magnitude, the capped force indeed has squared magnitude at most
`20² = 400`. -/
theorem apply_phase_damping_spec (cfg : LayoutCfg) (O : Oracle)
    (iteration : ℕ) (forces : Forces) (s : LSkill) (f : Pos)
    (hf : mapGet forces s.skill_id = some f)
    (hnn : 0 ≤ O.sqrt (f.x * f.x + f.y * f.y))
    (hsq : O.sqrt (f.x * f.x + f.y * f.y) * O.sqrt (f.x * f.x + f.y * f.y) =
      f.x * f.x + f.y * f.y) :
    adaptiveDamping cfg O iteration =
      max (1/20) (1 - O.pow
        ((iteration : ℚ) / ((maxForceIterations cfg : ℕ) : ℚ)) (7/10)) ∧
    (capForce O f).x * (capForce O f).x + (capForce O f).y * (capForce O f).y
      ≤ 400 ∧
    (applyForceToSkill cfg O (adaptiveDamping cfg O iteration) forces s).position =
      ⟨clampQ (cfg.nodeRadius * 2) (cfg.canvasWidth - cfg.nodeRadius * 2)
         (s.position.x + (capForce O f).x * adaptiveDamping cfg O iteration),
       clampQ (cfg.nodeRadius * 2) (cfg.canvasHeight - cfg.nodeRadius * 2)
         (s.position.y + (capForce O f).y * adaptiveDamping cfg O iteration)⟩ := by
  refine ⟨rfl, ?_, ?_⟩
  · unfold capForce
    set m := O.sqrt (f.x * f.x + f.y * f.y) with hm
    by_cases hcap : 20 < m
    · rw [if_pos hcap]
      have hmne : m ≠ 0 := by
        intro h0
        rw [h0] at hcap
        norm_num at hcap
      have hval : f.x / m * 20 * (f.x / m * 20) + f.y / m * 20 * (f.y / m * 20) =
          (f.x * f.x + f.y * f.y) * 400 / (m * m) := by
        field_simp
        ring
      rw [hval, ← hsq]
      have heq : m * m * 400 / (m * m) = 400 := by
        field_simp
      rw [heq]
    · rw [if_neg hcap]
      push_neg at hcap
      calc f.x * f.x + f.y * f.y = m * m := hsq.symm
      _ ≤ 20 * 20 := mul_le_mul hcap hcap hnn (by norm_num)
      _ = 400 := by norm_num
  · unfold applyForceToSkill
    rw [hf]
    rfl

/-- Witness for C5: a concrete force `(3, 4)` with exact magnitude 5
under `ratSqrt` satisfies the oracle hypotheses, and the conclusion
follows by applying the theorem. -/
theorem apply_phase_damping_spec_witness :
    (0 ≤ exOracle.sqrt ((3 : ℚ) * 3 + 4 * 4) ∧
     exOracle.sqrt ((3 : ℚ) * 3 + 4 * 4) * exOracle.sqrt ((3 : ℚ) * 3 + 4 * 4) =
       (3 : ℚ) * 3 + 4 * 4) ∧
    ((capForce exOracle ⟨3, 4⟩).x * (capForce exOracle ⟨3, 4⟩).x +
      (capForce exOracle ⟨3, 4⟩).y * (capForce exOracle ⟨3, 4⟩).y ≤ 400 ∧
     (applyForceToSkill defaultLayoutCfg exOracle
        (adaptiveDamping defaultLayoutCfg exOracle 0)
        [("w", ⟨3, 4⟩)] ⟨"w", ⟨480, 480⟩, []⟩).position =
      ⟨clampQ (defaultLayoutCfg.nodeRadius * 2)
         (defaultLayoutCfg.canvasWidth - defaultLayoutCfg.nodeRadius * 2)
         (480 + (capForce exOracle ⟨3, 4⟩).x *
           adaptiveDamping defaultLayoutCfg exOracle 0),
       clampQ (defaultLayoutCfg.nodeRadius * 2)
         (defaultLayoutCfg.canvasHeight - defaultLayoutCfg.nodeRadius * 2)
         (480 + (capForce exOracle ⟨3, 4⟩).y *
           adaptiveDamping defaultLayoutCfg exOracle 0)⟩) := by
  have hnn : 0 ≤ exOracle.sqrt ((3 : ℚ) * 3 + 4 * 4) := by
    norm_num [exOracle, ratSqrt]
  have hsq : exOracle.sqrt ((3 : ℚ) * 3 + 4 * 4) *
      exOracle.sqrt ((3 : ℚ) * 3 + 4 * 4) = (3 : ℚ) * 3 + 4 * 4 := by
    have ht : Int.toNat 25 = 25 := rfl
    norm_num [exOracle, ratSqrt, ht]
  have happ := apply_phase_damping_spec defaultLayoutCfg exOracle 0
    [("w", ⟨3, 4⟩)] ⟨"w", ⟨480, 480⟩, []⟩ ⟨3, 4⟩ rfl hnn hsq
  exact ⟨⟨hnn, hsq⟩, happ.2.1, happ.2.2⟩

/-! ### Randomness in the collision pass (C1) -/

/-- The grid neighbourhood an iteration examines for a given skill. -/
def nearbyOf (cfg : LayoutCfg) (O : Oracle) (skills : List LSkill)
    (s1 : LSkill) : List LSkill :=
  let gridPair := createSpatialGrid skills (enhancedMinDistance cfg * 2)
  getNearbySkillsFromGrid O s1 gridPair.1 gridPair.2
    (enhancedMinDistance cfg * 2)

/-- No pair the iteration examines (in processed order) has
oracle-distance zero — the guard of the `Math.random()` branch. -/
def NoCoincidentPair (cfg : LayoutCfg) (O : Oracle)
    (skills : List LSkill) : Prop :=
  ∀ s1 ∈ skills, ∀ s2 ∈ nearbyOf cfg O skills s1,
    s1.skill_id < s2.skill_id →
    O.sqrt ((s2.position.x - s1.position.x) * (s2.position.x - s1.position.x) +
            (s2.position.y - s1.position.y) * (s2.position.y - s1.position.y)) ≠ 0

instance (cfg : LayoutCfg) (O : Oracle) (skills : List LSkill) :
    Decidable (NoCoincidentPair cfg O skills) := by
  unfold NoCoincidentPair
  infer_instance

theorem pairStep_rng_indep (cfg : LayoutCfg) (O : Oracle) (s1 s2 : LSkill)
    (h : s1.skill_id < s2.skill_id →
      O.sqrt ((s2.position.x - s1.position.x) * (s2.position.x - s1.position.x) +
              (s2.position.y - s1.position.y) * (s2.position.y - s1.position.y)) ≠ 0)
    (rng rng' : ℕ → ℚ) (acc : PairAcc) :
    pairStep cfg O rng s1 s2 acc = pairStep cfg O rng' s1 s2 acc ∧
    (pairStep cfg O rng s1 s2 acc).rngIdx = acc.rngIdx := by
  unfold pairStep
  by_cases hlt : s1.skill_id < s2.skill_id
  · rw [if_pos hlt]
    dsimp only
    by_cases hdist : O.sqrt
        ((s2.position.x - s1.position.x) * (s2.position.x - s1.position.x) +
         (s2.position.y - s1.position.y) * (s2.position.y - s1.position.y)) <
        enhancedMinDistance cfg
    · rw [if_pos hdist, if_neg (h hlt), if_pos hlt, if_pos hdist, if_neg (h hlt)]
      exact ⟨rfl, rfl⟩
    · rw [if_neg hdist, if_pos hlt, if_neg hdist]
      exact ⟨rfl, rfl⟩
  · rw [if_neg hlt, if_neg hlt]
    exact ⟨rfl, rfl⟩

theorem pairFold_rng_indep (cfg : LayoutCfg) (O : Oracle) (s1 : LSkill)
    (l : List LSkill)
    (h : ∀ s2 ∈ l, s1.skill_id < s2.skill_id →
      O.sqrt ((s2.position.x - s1.position.x) * (s2.position.x - s1.position.x) +
              (s2.position.y - s1.position.y) * (s2.position.y - s1.position.y)) ≠ 0)
    (rng rng' : ℕ → ℚ) (acc : PairAcc) :
    l.foldl (fun a s2 => pairStep cfg O rng s1 s2 a) acc =
      l.foldl (fun a s2 => pairStep cfg O rng' s1 s2 a) acc ∧
    (l.foldl (fun a s2 => pairStep cfg O rng s1 s2 a) acc).rngIdx = acc.rngIdx := by
  induction l generalizing acc with
  | nil => exact ⟨rfl, rfl⟩
  | cons s2 t ih =>
    have hs2 := h s2 (List.mem_cons_self s2 t)
    have hstep := pairStep_rng_indep cfg O s1 s2 hs2 rng rng' acc
    have iht := ih (fun x hx => h x (List.mem_cons_of_mem s2 hx))
      (pairStep cfg O rng s1 s2 acc)
    simp only [List.foldl_cons]
    constructor
    · rw [← hstep.1]
      exact iht.1
    · rw [iht.2]
      exact hstep.2

theorem repulsionPhase_rng_indep (cfg : LayoutCfg) (O : Oracle)
    (skills : List LSkill) (grid : SpatialGrid) (cellSize : ℤ)
    (h : ∀ s1 ∈ skills, ∀ s2 ∈ getNearbySkillsFromGrid O s1 grid cellSize
        (enhancedMinDistance cfg * 2),
      s1.skill_id < s2.skill_id →
      O.sqrt ((s2.position.x - s1.position.x) * (s2.position.x - s1.position.x) +
              (s2.position.y - s1.position.y) * (s2.position.y - s1.position.y)) ≠ 0)
    (rng rng' : ℕ → ℚ) (acc : PairAcc) :
    repulsionPhase cfg O rng skills grid cellSize acc =
      repulsionPhase cfg O rng' skills grid cellSize acc ∧
    (repulsionPhase cfg O rng skills grid cellSize acc).rngIdx = acc.rngIdx := by
  unfold repulsionPhase
  induction skills generalizing acc with
  | nil => exact ⟨rfl, rfl⟩
  | cons s1 t ih =>
    have hs1 := h s1 (List.mem_cons_self s1 t)
    have hfold := pairFold_rng_indep cfg O s1
      (getNearbySkillsFromGrid O s1 grid cellSize (enhancedMinDistance cfg * 2))
      hs1 rng rng' acc
    have iht := ih (fun x hx => h x (List.mem_cons_of_mem s1 hx))
      ((getNearbySkillsFromGrid O s1 grid cellSize
        (enhancedMinDistance cfg * 2)).foldl
        (fun a s2 => pairStep cfg O rng s1 s2 a) acc)
    simp only [List.foldl_cons]
    constructor
    · rw [← hfold.1]
      exact iht.1
    · rw [iht.2]
      exact hfold.2

/-- **C1 (amended).** Seed placement, radial skill placement and
connection-path generation take no randomness at all (they are pure
functions of their inputs in this development), and a
collision-resolution iteration is a deterministic function of the
current skill positions whenever no pair it examines has distance
zero: the iteration's result is identical for any two `Math.random()`
streams and consumes no random value.  Reproducibility of the full
pipeline fails only through the coincident-pair branch, which draws
from the unseeded `Math.random()` (see the counterexample). -/
theorem iterationStep_rng_independent (cfg : LayoutCfg) (O : Oracle)
    (skills : List LSkill) (h : NoCoincidentPair cfg O skills)
    (rng rng' : ℕ → ℚ) (iteration rngIdx : ℕ) :
    iterationStep cfg O rng iteration rngIdx skills =
      iterationStep cfg O rng' iteration rngIdx skills ∧
    (iterationStep cfg O rng iteration rngIdx skills).rngIdx = rngIdx := by
  have hrep := repulsionPhase_rng_indep cfg O skills
    (createSpatialGrid skills (enhancedMinDistance cfg * 2)).1
    (createSpatialGrid skills (enhancedMinDistance cfg * 2)).2
    h rng rng'
    { forces := skills.map fun s => (s.skill_id, ⟨0, 0⟩),
      hasOverlaps := false, total := 0, rngIdx := rngIdx }
  refine ⟨?_, ?_⟩
  · unfold iterationStep
    dsimp only
    rw [hrep.1]
  · unfold iterationStep
    dsimp only
    exact hrep.2

set_option maxHeartbeats 1000000 in
theorem iterationStep_rng_zero_eval :
    (iterationStep defaultLayoutCfg exOracle (fun _ => 0) 0 0
      [⟨"a", ⟨480, 480⟩, []⟩, ⟨"b", ⟨480, 480⟩, []⟩]).skills =
    [⟨"a", ⟨470, 480⟩, []⟩, ⟨"b", ⟨490, 480⟩, []⟩] := by
  have hab : ("a" : String) < "b" := by
    rw [String.lt_iff_toList_lt]
    decide
  have hba : ¬ ("b" : String) < "a" := by
    rw [String.lt_iff_toList_lt]
    decide
  have hemd : enhancedMinDistance defaultLayoutCfg * 2 = 240 := by
    norm_num [enhancedMinDistance, defaultLayoutCfg]
  have hg : createSpatialGrid [(⟨"a", ⟨480, 480⟩, []⟩ : LSkill), ⟨"b", ⟨480, 480⟩, []⟩]
      240 = ([((2, 2), [⟨"a", ⟨480, 480⟩, []⟩, ⟨"b", ⟨480, 480⟩, []⟩])], 240) := by
    unfold createSpatialGrid
    norm_num [gridInsert, Int.floor_eq_iff]
  have hna : getNearbySkillsFromGrid exOracle ⟨"a", ⟨480, 480⟩, []⟩
      [((2, 2), [⟨"a", ⟨480, 480⟩, []⟩, ⟨"b", ⟨480, 480⟩, []⟩])] 240 240 =
      [⟨"b", ⟨480, 480⟩, []⟩] := by
    have h1 : (⌈(240:ℚ) / ((240:ℤ):ℚ)⌉ : ℤ) = 1 := by norm_num [Int.ceil_eq_iff]
    have h2 : (⌊(480:ℚ) / ((240:ℤ):ℚ)⌋ : ℤ) = 2 := by norm_num [Int.floor_eq_iff]
    unfold getNearbySkillsFromGrid
    rw [h1, h2]
    simp only [show cellOffsets 1 = [-1, 0, 1] from rfl, List.foldl_cons, List.foldl_nil]
    norm_num [gridGet, exOracle, ratSqrt, List.filter_cons]
    decide
  have hnb : getNearbySkillsFromGrid exOracle ⟨"b", ⟨480, 480⟩, []⟩
      [((2, 2), [⟨"a", ⟨480, 480⟩, []⟩, ⟨"b", ⟨480, 480⟩, []⟩])] 240 240 =
      [⟨"a", ⟨480, 480⟩, []⟩] := by
    have h1 : (⌈(240:ℚ) / ((240:ℤ):ℚ)⌉ : ℤ) = 1 := by norm_num [Int.ceil_eq_iff]
    have h2 : (⌊(480:ℚ) / ((240:ℤ):ℚ)⌋ : ℤ) = 2 := by norm_num [Int.floor_eq_iff]
    unfold getNearbySkillsFromGrid
    rw [h1, h2]
    simp only [show cellOffsets 1 = [-1, 0, 1] from rfl, List.foldl_cons, List.foldl_nil]
    norm_num [gridGet, exOracle, ratSqrt, List.filter_cons]
    decide
  unfold iterationStep
  dsimp only
  rw [hemd, hg]
  dsimp only
  unfold repulsionPhase
  simp only [List.foldl_cons, List.foldl_nil]
  rw [hemd, hna, hnb]
  simp only [List.foldl_cons, List.foldl_nil]
  have hts : Int.toNat 100 = 100 := rfl
  have hne1 : ¬ ("a" : String) = "b" := by decide
  have hne2 : ¬ ("b" : String) = "a" := by decide
  norm_num [pairStep, mapAddForce, attractionPhase, applyPhase, applyForceToSkill,
    capForce, adaptiveDamping, clampQ, mapGet, exOracle, ratSqrt, hts, hab, hba,
    hne1, hne2, maxForceIterations, defaultLayoutCfg, enhancedMinDistance,
    min_def, max_def]

set_option maxHeartbeats 1000000 in
theorem iterationStep_rng_quarter_eval :
    (iterationStep defaultLayoutCfg exOracle (fun _ => 1/4) 0 0
      [⟨"a", ⟨480, 480⟩, []⟩, ⟨"b", ⟨480, 480⟩, []⟩]).skills =
    [⟨"a", ⟨480, 470⟩, []⟩, ⟨"b", ⟨480, 490⟩, []⟩] := by
  have hab : ("a" : String) < "b" := by
    rw [String.lt_iff_toList_lt]
    decide
  have hba : ¬ ("b" : String) < "a" := by
    rw [String.lt_iff_toList_lt]
    decide
  have hemd : enhancedMinDistance defaultLayoutCfg * 2 = 240 := by
    norm_num [enhancedMinDistance, defaultLayoutCfg]
  have hg : createSpatialGrid [(⟨"a", ⟨480, 480⟩, []⟩ : LSkill), ⟨"b", ⟨480, 480⟩, []⟩]
      240 = ([((2, 2), [⟨"a", ⟨480, 480⟩, []⟩, ⟨"b", ⟨480, 480⟩, []⟩])], 240) := by
    unfold createSpatialGrid
    norm_num [gridInsert, Int.floor_eq_iff]
  have hna : getNearbySkillsFromGrid exOracle ⟨"a", ⟨480, 480⟩, []⟩
      [((2, 2), [⟨"a", ⟨480, 480⟩, []⟩, ⟨"b", ⟨480, 480⟩, []⟩])] 240 240 =
      [⟨"b", ⟨480, 480⟩, []⟩] := by
    have h1 : (⌈(240:ℚ) / ((240:ℤ):ℚ)⌉ : ℤ) = 1 := by norm_num [Int.ceil_eq_iff]
    have h2 : (⌊(480:ℚ) / ((240:ℤ):ℚ)⌋ : ℤ) = 2 := by norm_num [Int.floor_eq_iff]
    unfold getNearbySkillsFromGrid
    rw [h1, h2]
    simp only [show cellOffsets 1 = [-1, 0, 1] from rfl, List.foldl_cons, List.foldl_nil]
    norm_num [gridGet, exOracle, ratSqrt, List.filter_cons]
    decide
  have hnb : getNearbySkillsFromGrid exOracle ⟨"b", ⟨480, 480⟩, []⟩
      [((2, 2), [⟨"a", ⟨480, 480⟩, []⟩, ⟨"b", ⟨480, 480⟩, []⟩])] 240 240 =
      [⟨"a", ⟨480, 480⟩, []⟩] := by
    have h1 : (⌈(240:ℚ) / ((240:ℤ):ℚ)⌉ : ℤ) = 1 := by norm_num [Int.ceil_eq_iff]
    have h2 : (⌊(480:ℚ) / ((240:ℤ):ℚ)⌋ : ℤ) = 2 := by norm_num [Int.floor_eq_iff]
    unfold getNearbySkillsFromGrid
    rw [h1, h2]
    simp only [show cellOffsets 1 = [-1, 0, 1] from rfl, List.foldl_cons, List.foldl_nil]
    norm_num [gridGet, exOracle, ratSqrt, List.filter_cons]
    decide
  unfold iterationStep
  dsimp only
  rw [hemd, hg]
  dsimp only
  unfold repulsionPhase
  simp only [List.foldl_cons, List.foldl_nil]
  rw [hemd, hna, hnb]
  simp only [List.foldl_cons, List.foldl_nil]
  have hts : Int.toNat 100 = 100 := rfl
  have hne1 : ¬ ("a" : String) = "b" := by decide
  have hne2 : ¬ ("b" : String) = "a" := by decide
  norm_num [pairStep, mapAddForce, attractionPhase, applyPhase, applyForceToSkill,
    capForce, adaptiveDamping, clampQ, mapGet, exOracle, ratSqrt, hts, hab, hba,
    hne1, hne2, maxForceIterations, defaultLayoutCfg, enhancedMinDistance,
    min_def, max_def]

/-- **C1 (counterexample).** The collision-resolution step of the
pipeline does depend on an unseeded randomness source: with the default
configuration and two skills at identical positions, the very first
iteration moves the skills apart along a direction taken from the
`Math.random()` stream — two different streams (constant 0 and
constant 1/4) produce different positions, so a fixed graph, fixed
configuration and fixed seed do not determine the output. -/
theorem layout_random_counterexample :
    (iterationStep defaultLayoutCfg exOracle (fun _ => 0) 0 0
      [⟨"a", ⟨480, 480⟩, []⟩, ⟨"b", ⟨480, 480⟩, []⟩]).skills ≠
    (iterationStep defaultLayoutCfg exOracle (fun _ => 1/4) 0 0
      [⟨"a", ⟨480, 480⟩, []⟩, ⟨"b", ⟨480, 480⟩, []⟩]).skills := by
  rw [iterationStep_rng_zero_eval, iterationStep_rng_quarter_eval]
  intro h
  have := List.head_eq_of_cons_eq h
  have hx := congrArg (fun s : LSkill => s.position.x) this
  norm_num at hx

/-- Witness for the amended C1: on a skill set with no coincident pair
(here the empty one) the iteration result is stream-independent and
consumes no random value. -/
theorem iterationStep_rng_independent_witness :
    NoCoincidentPair defaultLayoutCfg exOracle [] ∧
    (iterationStep defaultLayoutCfg exOracle (fun _ => 0) 0 0 [] =
      iterationStep defaultLayoutCfg exOracle (fun _ => 1/4) 0 0 [] ∧
     (iterationStep defaultLayoutCfg exOracle (fun _ => 0) 0 0 []).rngIdx = 0) :=
  ⟨fun s1 h => absurd h (List.not_mem_nil s1),
   iterationStep_rng_independent defaultLayoutCfg exOracle []
     (fun s1 h => absurd h (List.not_mem_nil s1)) (fun _ => 0) (fun _ => 1/4) 0 0⟩

/-! ### Position bounds of the layout pipeline (C3)

Every stage that writes positions clamps them into the canvas with its
own padding: category seeds with padding 100, radial skill placement
with padding 50, the enhanced force pass with padding
`nodeRadius * 2 = 60`, and the simulation tick with padding
`nodeRadius = 30` for non-root nodes.  All values are rationals, hence
finite. -/

/-- A category as the layout engine sees it (the radial fields are
written by `establishRadialCategorySeedPoints`). -/
structure Category where
  id : String
  position : Pos
  radialAngle : ℚ
  radialRadius : ℚ
  centerX : ℚ
  centerY : ℚ
deriving DecidableEq, Repr

/-- `establishRadialCategorySeedPoints(categories)`: distribute the
categories on a circle of radius `min(W, H) * 0.15` around the canvas
centre and clamp each seed into `[100, dimension − 100]`. -/
def establishRadialCategorySeedPoints (cfg : LayoutCfg) (O : Oracle)
    (categories : List Category) : List Category :=
  let numCategories := categories.length
  let centerX := cfg.canvasWidth / 2
  let centerY := cfg.canvasHeight / 2
  let categoryRadius := min cfg.canvasWidth cfg.canvasHeight * (3/20)
  categories.enum.map fun p =>
    let angle := ((p.1 : ℚ) / (numCategories : ℚ)) * O.pi * 2
    let x := centerX + O.cos angle * categoryRadius
    let y := centerY + O.sin angle * categoryRadius
    { p.2 with
      position := ⟨clampQ 100 (cfg.canvasWidth - 100) x,
                   clampQ 100 (cfg.canvasHeight - 100) y⟩,
      radialAngle := angle, radialRadius := categoryRadius,
      centerX := centerX, centerY := centerY }

/-- Per-node adjacency of `buildSkillTreeStructure`, by identifier
(the source stores object references). -/
structure SkillNodeInfo where
  children : List String
deriving DecidableEq, Repr

/-- The `{skillMap, roots}` structure fed to the radial positioner. -/
structure SkillTreeStruct where
  skillMap : List (String × SkillNodeInfo)
  roots : List String
deriving DecidableEq, Repr

/-- Append an id to the list at the given depth of the insertion-ordered
depth-levels map, creating the level on first use. -/
def levelAdd (levels : List (ℕ × List String)) (depth : ℕ) (id : String) :
    List (ℕ × List String) :=
  match levels with
  | [] => [(depth, [id])]
  | (d, l) :: t =>
    if d = depth then (d, l ++ [id]) :: t else (d, l) :: levelAdd t depth id

/-- Total number of child references, used to bound the BFS queue. -/
def totalChildren (tree : SkillTreeStruct) : ℕ :=
  (tree.skillMap.map fun p => p.2.children.length).sum

/-- The BFS loop of `organizeSkillsByDepth`: pop, skip visited, record
the depth level, push unvisited children at depth + 1.  The `fuel`
argument bounds the queue work; the source loop terminates because the
visited set grows, and the fuel chosen in `organizeSkillsByDepth`
covers every possible push. -/
def bfsLevels (tree : SkillTreeStruct) :
    ℕ → List (String × ℕ) → List String → List (ℕ × List String) →
    List (ℕ × List String)
  | 0, _, _, acc => acc
  | _ + 1, [], _, acc => acc
  | fuel + 1, (id, depth) :: rest, visited, acc =>
    if visited.contains id then bfsLevels tree fuel rest visited acc
    else
      let visited2 := id :: visited
      let acc2 := levelAdd acc depth id
      let children :=
        match mapGet tree.skillMap id with
        | some info => info.children
        | none => []
      let queue2 := rest ++
        (children.filter fun c => !(visited2.contains c)).map fun c => (c, depth + 1)
      bfsLevels tree fuel queue2 visited2 acc2

/-- `organizeSkillsByDepth(skillTree)`: BFS from the roots, levels in
discovery order. -/
def organizeSkillsByDepth (tree : SkillTreeStruct) : List (ℕ × List String) :=
  bfsLevels tree (tree.roots.length + totalChildren tree + 1)
    (tree.roots.map fun r => (r, 0)) [] []

/-- The body of the `depthLevels.forEach` in `positionSkillsRadially`:
place one depth level on a ring around the category seed, clamping
every assigned position into `[50, dimension − 50]`; the state carries
the current outer radius and the assignments so far. -/
def radialLevelStep (cfg : LayoutCfg) (O : Oracle) (category : Category)
    (st : ℚ × List (String × Pos)) (lvl : ℕ × List String) :
    ℚ × List (String × Pos) :=
  let numSkills : ℕ := lvl.2.length
  if numSkills = 0 then st
  else
    let optimalAngleSpacing := O.pi * 2 / (numSkills : ℚ)
    let actualAngleSpacing := max (O.pi / 12) optimalAngleSpacing
    let nodeSpacingRadius :=
      cfg.nodeRadius * (11/5) / O.sin (actualAngleSpacing / 2)
    let ringRadius := max (st.1 + 45) nodeSpacingRadius
    let newAssigns := st.2 ++ lvl.2.enum.map fun q =>
      let baseAngle := category.radialAngle + (q.1 : ℚ) * actualAngleSpacing
      let variation := O.sin ((q.1 : ℚ) * (12/5) + (lvl.1 : ℚ) * (17/10)) * (1/10)
      let actualAngle := baseAngle + variation
      let x := category.position.x + O.cos actualAngle * ringRadius
      let y := category.position.y + O.sin actualAngle * ringRadius
      (q.2, (⟨clampQ 50 (cfg.canvasWidth - 50) x,
              clampQ 50 (cfg.canvasHeight - 50) y⟩ : Pos))
    (ringRadius, newAssigns)

/-- `positionSkillsRadially(category, skillTree)`: place each depth
level on a ring around the category seed (start radius 50, minimum
ring increment 45, minimum angle spacing π/12) and clamp every
assigned position.  The source mutates `skillNode.skill.position`;
this embedding returns the assignment list `(skill_id, position)` in
assignment order. -/
def positionSkillsRadially (cfg : LayoutCfg) (O : Oracle)
    (category : Category) (tree : SkillTreeStruct) : List (String × Pos) :=
  ((organizeSkillsByDepth tree).foldl (radialLevelStep cfg O category)
    ((50 : ℚ), [])).2

theorem radialLevelStep_mem (cfg : LayoutCfg) (O : Oracle)
    (category : Category) (st : ℚ × List (String × Pos))
    (lvl : ℕ × List String) (q : String × Pos)
    (hq : q ∈ (radialLevelStep cfg O category st lvl).2) :
    q ∈ st.2 ∨ ∃ x y, q.2 = (⟨clampQ 50 (cfg.canvasWidth - 50) x,
      clampQ 50 (cfg.canvasHeight - 50) y⟩ : Pos) := by
  unfold radialLevelStep at hq
  dsimp only at hq
  split at hq
  · exact Or.inl hq
  · rcases List.mem_append.mp hq with hin | hnew
    · exact Or.inl hin
    · obtain ⟨e, _, rfl⟩ := List.mem_map.mp hnew
      exact Or.inr ⟨_, _, rfl⟩

theorem radialFold_bounds (cfg : LayoutCfg) (O : Oracle)
    (category : Category)
    (hx : (50 : ℚ) ≤ cfg.canvasWidth - 50) (hy : (50 : ℚ) ≤ cfg.canvasHeight - 50)
    (levels : List (ℕ × List String)) :
    ∀ (st : ℚ × List (String × Pos)),
    (∀ q ∈ st.2, 50 ≤ q.2.x ∧ q.2.x ≤ cfg.canvasWidth - 50 ∧
      50 ≤ q.2.y ∧ q.2.y ≤ cfg.canvasHeight - 50) →
    ∀ q ∈ (levels.foldl (radialLevelStep cfg O category) st).2,
      50 ≤ q.2.x ∧ q.2.x ≤ cfg.canvasWidth - 50 ∧
      50 ≤ q.2.y ∧ q.2.y ≤ cfg.canvasHeight - 50 := by
  induction levels with
  | nil => intro st hst q hq; exact hst q hq
  | cons lvl rest ih =>
    intro st hst q hq
    simp only [List.foldl_cons] at hq
    refine ih _ ?_ q hq
    intro q2 hq2
    rcases radialLevelStep_mem cfg O category st lvl q2 hq2 with hin | ⟨x, y, hxy⟩
    · exact hst q2 hin
    · rw [hxy]
      obtain ⟨h1, h2⟩ := clampQ_mem 50 (cfg.canvasWidth - 50) x hx
      obtain ⟨h3, h4⟩ := clampQ_mem 50 (cfg.canvasHeight - 50) y hy
      exact ⟨h1, h2, h3, h4⟩

/-- A D3 node as `onSimulationTick` sees it (root nodes are the fixed
ones; the handler also copies the node position into the skill record
and triggers a render, both outside this model). -/
structure TickNode where
  x : ℚ
  y : ℚ
  isRoot : Bool
deriving DecidableEq, Repr

/-- `onSimulationTick()`: clamp every non-root node into the canvas
with padding `nodeRadius`. -/
def onSimulationTickNodes (cfg : LayoutCfg) (nodes : List TickNode) :
    List TickNode :=
  nodes.map fun n =>
    if n.isRoot then n
    else
      { n with x := clampQ cfg.nodeRadius (cfg.canvasWidth - cfg.nodeRadius) n.x,
               y := clampQ cfg.nodeRadius (cfg.canvasHeight - cfg.nodeRadius) n.y }

theorem applyPhase_bounded (cfg : LayoutCfg) (O : Oracle) (iteration : ℕ)
    (forces : Forces) (skills : List LSkill)
    (hx : cfg.nodeRadius * 2 ≤ cfg.canvasWidth - cfg.nodeRadius * 2)
    (hy : cfg.nodeRadius * 2 ≤ cfg.canvasHeight - cfg.nodeRadius * 2) :
    ∀ s ∈ applyPhase cfg O iteration forces skills,
      cfg.nodeRadius * 2 ≤ s.position.x ∧
      s.position.x ≤ cfg.canvasWidth - cfg.nodeRadius * 2 ∧
      cfg.nodeRadius * 2 ≤ s.position.y ∧
      s.position.y ≤ cfg.canvasHeight - cfg.nodeRadius * 2 := by
  intro s hs
  unfold applyPhase at hs
  obtain ⟨s0, _, rfl⟩ := List.mem_map.mp hs
  unfold applyForceToSkill
  dsimp only
  obtain ⟨h1, h2⟩ := clampQ_mem (cfg.nodeRadius * 2) (cfg.canvasWidth - cfg.nodeRadius * 2)
    (s0.position.x + (capForce O ((mapGet forces s0.skill_id).getD ⟨0, 0⟩)).x *
      adaptiveDamping cfg O iteration) hx
  obtain ⟨h3, h4⟩ := clampQ_mem (cfg.nodeRadius * 2) (cfg.canvasHeight - cfg.nodeRadius * 2)
    (s0.position.y + (capForce O ((mapGet forces s0.skill_id).getD ⟨0, 0⟩)).y *
      adaptiveDamping cfg O iteration) hy
  exact ⟨h1, h2, h3, h4⟩

theorem forceLoop_bounded (cfg : LayoutCfg) (O : Oracle) (rng : ℕ → ℚ)
    (hx : cfg.nodeRadius * 2 ≤ cfg.canvasWidth - cfg.nodeRadius * 2)
    (hy : cfg.nodeRadius * 2 ≤ cfg.canvasHeight - cfg.nodeRadius * 2)
    (fuel : ℕ) : ∀ (iteration rngIdx : ℕ) (skills : List LSkill),
    ∀ s ∈ (forceLoop cfg O rng (fuel + 1) iteration rngIdx skills).1,
      cfg.nodeRadius * 2 ≤ s.position.x ∧
      s.position.x ≤ cfg.canvasWidth - cfg.nodeRadius * 2 ∧
      cfg.nodeRadius * 2 ≤ s.position.y ∧
      s.position.y ≤ cfg.canvasHeight - cfg.nodeRadius * 2 := by
  induction fuel with
  | zero =>
    intro it idx skills s hs
    unfold forceLoop at hs
    dsimp only at hs
    split at hs
    · exact applyPhase_bounded cfg O it _ skills hx hy s hs
    · unfold forceLoop at hs
      exact applyPhase_bounded cfg O it _ skills hx hy s hs
  | succ n ih =>
    intro it idx skills s hs
    unfold forceLoop at hs
    dsimp only at hs
    split at hs
    · exact applyPhase_bounded cfg O it _ skills hx hy s hs
    · exact ih (it + 1) _ _ s hs

/-- **C3.** After the layout pipeline completes, every written position
is finite (all values are exact rationals in this model) and lies
within the configured canvas bounds with the stage's padding, on both
axes: category seeds in `[100, dimension − 100]`, radially placed
skills in `[50, dimension − 50]`, skills leaving the enhanced
force-directed pass in `[nodeRadius·2, dimension − nodeRadius·2] =
[60, dimension − 60]`, and non-root simulation nodes after a tick in
`[nodeRadius, dimension − nodeRadius] = [30, dimension − 30]`
(root nodes are pinned at their radial positions).  Stated with the
constructor's canvas `1600 × 1200`. -/
theorem layout_positions_in_bounds (O : Oracle) (rng : ℕ → ℚ)
    (categories : List Category) (category : Category)
    (tree : SkillTreeStruct) (skills : List LSkill) (nodes : List TickNode) :
    ((establishRadialCategorySeedPoints defaultLayoutCfg O categories).all
      fun c => decide (100 ≤ c.position.x) && decide (c.position.x ≤ 1500) &&
        decide (100 ≤ c.position.y) && decide (c.position.y ≤ 1100)) = true ∧
    ((positionSkillsRadially defaultLayoutCfg O category tree).all
      fun p => decide (50 ≤ p.2.x) && decide (p.2.x ≤ 1550) &&
        decide (50 ≤ p.2.y) && decide (p.2.y ≤ 1150)) = true ∧
    ((applyEnhancedForceDirectedLayout defaultLayoutCfg O rng skills).1.all
      fun s => decide (60 ≤ s.position.x) && decide (s.position.x ≤ 1540) &&
        decide (60 ≤ s.position.y) && decide (s.position.y ≤ 1140)) = true ∧
    ((onSimulationTickNodes defaultLayoutCfg nodes).all
      fun n => n.isRoot || (decide (30 ≤ n.x) && decide (n.x ≤ 1570) &&
        decide (30 ≤ n.y) && decide (n.y ≤ 1170))) = true := by
  refine ⟨?_, ?_, ?_, ?_⟩
  · rw [List.all_eq_true]
    intro c hc
    unfold establishRadialCategorySeedPoints at hc
    obtain ⟨p, _, rfl⟩ := List.mem_map.mp hc
    dsimp only
    simp only [Bool.and_eq_true, decide_eq_true_eq]
    norm_num [defaultLayoutCfg]
    obtain ⟨h1, h2⟩ := clampQ_mem (100 : ℚ) 1500 _ (by norm_num)
    obtain ⟨h3, h4⟩ := clampQ_mem (100 : ℚ) 1100 _ (by norm_num)
    exact ⟨⟨⟨h1, h2⟩, h3⟩, h4⟩
  · rw [List.all_eq_true]
    intro p hp
    unfold positionSkillsRadially at hp
    have hb := radialFold_bounds defaultLayoutCfg O category
      (by norm_num [defaultLayoutCfg]) (by norm_num [defaultLayoutCfg])
      (organizeSkillsByDepth tree) ((50 : ℚ), [])
      (by intro q hq; cases hq) p hp
    norm_num [defaultLayoutCfg] at hb
    simp only [Bool.and_eq_true, decide_eq_true_eq]
    exact ⟨⟨⟨hb.1, hb.2.1⟩, hb.2.2.1⟩, hb.2.2.2⟩
  · rw [List.all_eq_true]
    intro s hs
    have hb := forceLoop_bounded defaultLayoutCfg O rng
      (by norm_num [defaultLayoutCfg]) (by norm_num [defaultLayoutCfg])
      (maxForceIterations defaultLayoutCfg - 1) 0 0 skills s
    have hfuel : maxForceIterations defaultLayoutCfg - 1 + 1 =
        maxForceIterations defaultLayoutCfg := by
      norm_num [maxForceIterations, defaultLayoutCfg]
    rw [hfuel] at hb
    have hbs := hb hs
    norm_num [defaultLayoutCfg] at hbs
    simp only [Bool.and_eq_true, decide_eq_true_eq]
    exact ⟨⟨⟨hbs.1, hbs.2.1⟩, hbs.2.2.1⟩, hbs.2.2.2⟩
  · rw [List.all_eq_true]
    intro n hn
    unfold onSimulationTickNodes at hn
    obtain ⟨n0, _, rfl⟩ := List.mem_map.mp hn
    by_cases hroot : n0.isRoot
    · rw [if_pos hroot]
      simp [hroot]
    · rw [if_neg hroot]
      obtain ⟨h1, h2⟩ := clampQ_mem defaultLayoutCfg.nodeRadius
        (defaultLayoutCfg.canvasWidth - defaultLayoutCfg.nodeRadius) n0.x
        (by norm_num [defaultLayoutCfg])
      obtain ⟨h3, h4⟩ := clampQ_mem defaultLayoutCfg.nodeRadius
        (defaultLayoutCfg.canvasHeight - defaultLayoutCfg.nodeRadius) n0.y
        (by norm_num [defaultLayoutCfg])
      simp only [Bool.or_eq_true, Bool.and_eq_true, decide_eq_true_eq]
      norm_num [defaultLayoutCfg]
      norm_num [defaultLayoutCfg] at h1 h2 h3 h4
      exact Or.inr ⟨⟨⟨h1, h2⟩, h3⟩, h4⟩

/-! ### The organic connection-path generator (C6) -/

/-- One step of the seeded linear congruential generator inside
`calculateOrganicConnectionPath` (JavaScript `%` is truncating
remainder, `Int.tmod`). -/
def lcgNext (state : ℤ) : ℤ := (state * 9301 + 49297).tmod 233280

set_option linter.unusedVariables false in
/-- `calculateOrganicConnectionPath(fromPos, toPos, allConnections)`:
a 2-point straight line for endpoints closer than `minDistance`,
otherwise a 3-point path whose control point is the midpoint plus a
perpendicular offset and a smaller seeded offset along the edge,
clamped into `[50, dimension − 50]`.  The LCG is seeded from the
endpoint coordinates alone; `allConnections` is accepted and never
read, exactly as in the source. -/
def calculateOrganicConnectionPath (cfg : LayoutCfg) (O : Oracle)
    (fromPos toPos : Pos) (allConnections : List (Pos × Pos)) : List Pos :=
  let dx := toPos.x - fromPos.x
  let dy := toPos.y - fromPos.y
  let distance := O.sqrt (dx * dx + dy * dy)
  if distance < cfg.minDistance then [fromPos, toPos]
  else
    let midX := (fromPos.x + toPos.x) / 2
    let midY := (fromPos.y + toPos.y) / 2
    let seed := (⌊fromPos.x + fromPos.y + toPos.x + toPos.y⌋).tmod 1000
    let state1 := lcgNext seed
    let r1 : ℚ := (state1 : ℚ) / 233280
    let state2 := lcgNext state1
    let r2 : ℚ := (state2 : ℚ) / 233280
    let perpX := -dy / distance
    let perpY := dx / distance
    let curveDirection : ℚ := if 1/2 < r1 then 1 else -1
    let curveStrength := (distance * cfg.connectionCurve * (3/5) + 20) * curveDirection
    let secondaryCurve := (r2 - 1/2) * 15
    let controlX := midX + perpX * curveStrength + perpY * secondaryCurve
    let controlY := midY + perpY * curveStrength - perpX * secondaryCurve
    [fromPos,
     ⟨clampQ 50 (cfg.canvasWidth - 50) controlX,
      clampQ 50 (cfg.canvasHeight - 50) controlY⟩,
     toPos]

theorem tmod_bound_233280 (a : ℤ) :
    -(233280:ℤ) < a.tmod 233280 ∧ a.tmod 233280 < 233280 := by
  constructor
  · cases a with
    | ofNat m =>
      have h : (0:ℤ) ≤ Int.tmod (Int.ofNat m) 233280 :=
        Int.tmod_nonneg 233280 (Int.ofNat_nonneg m)
      omega
    | negSucc m =>
      have h : Int.tmod (Int.negSucc m) 233280 =
          -Int.ofNat (Nat.succ m % 233280) := rfl
      rw [h]
      have hlt : Nat.succ m % 233280 < 233280 := Nat.mod_lt _ (by norm_num)
      have hcast : (Int.ofNat (Nat.succ m % 233280)) < 233280 :=
        Int.ofNat_lt.mpr hlt
      omega
  · exact Int.tmod_lt_of_pos a (by norm_num)

/-- **C6 (amended).** The connection path is a deterministic function
of the two endpoint positions alone (`allConnections` is ignored); it
is the 2-point straight path `[from, to]` when the endpoint distance
is below `minDistance`; otherwise it is a 3-point path whose middle
control point is the edge midpoint plus a perpendicular offset of
signed magnitude `±(distance × connectionCurve × 0.6 + 20)` **plus a
smaller seeded offset along the edge direction** (absolute value below
22.5), the control point clamped into `[50, dimension − 50]` on each
axis.  (The original claim called the control point a purely
perpendicular offset; the along-edge component refutes that — see the
counterexample.) -/
theorem connection_path_spec (cfg : LayoutCfg) (O : Oracle) (p q : Pos)
    (conns conns' : List (Pos × Pos)) :
    (calculateOrganicConnectionPath cfg O p q conns =
      calculateOrganicConnectionPath cfg O p q conns') ∧
    (O.sqrt ((q.x - p.x) * (q.x - p.x) + (q.y - p.y) * (q.y - p.y)) <
        cfg.minDistance →
      calculateOrganicConnectionPath cfg O p q conns = [p, q]) ∧
    (¬ O.sqrt ((q.x - p.x) * (q.x - p.x) + (q.y - p.y) * (q.y - p.y)) <
        cfg.minDistance →
      ∃ sgn j : ℚ, (sgn = 1 ∨ sgn = -1) ∧ |j| < 45/2 ∧
        calculateOrganicConnectionPath cfg O p q conns =
          (let d := O.sqrt ((q.x - p.x) * (q.x - p.x) + (q.y - p.y) * (q.y - p.y))
          [p,
           ⟨clampQ 50 (cfg.canvasWidth - 50)
              ((p.x + q.x) / 2 +
                -(q.y - p.y) / d * ((d * cfg.connectionCurve * (3/5) + 20) * sgn) +
                (q.x - p.x) / d * j),
            clampQ 50 (cfg.canvasHeight - 50)
              ((p.y + q.y) / 2 +
                (q.x - p.x) / d * ((d * cfg.connectionCurve * (3/5) + 20) * sgn) -
                -(q.y - p.y) / d * j)⟩,
           q])) := by
  refine ⟨rfl, ?_, ?_⟩
  · intro hlt
    unfold calculateOrganicConnectionPath
    rw [if_pos hlt]
  · intro hge
    refine ⟨(if 1/2 <
        ((lcgNext ((⌊p.x + p.y + q.x + q.y⌋).tmod 1000) : ℤ) : ℚ) / 233280
      then 1 else -1),
      (((lcgNext (lcgNext ((⌊p.x + p.y + q.x + q.y⌋).tmod 1000)) : ℤ) : ℚ) / 233280
        - 1/2) * 15, ?_, ?_, ?_⟩
    · split
      · exact Or.inl rfl
      · exact Or.inr rfl
    · set t : ℤ := lcgNext ((⌊p.x + p.y + q.x + q.y⌋).tmod 1000) with ht
      have hb := tmod_bound_233280 (t * 9301 + 49297)
      have hrw : lcgNext t = (t * 9301 + 49297).tmod 233280 := rfl
      rw [hrw]
      have hlow : (-1 : ℚ) < (((t * 9301 + 49297).tmod 233280 : ℤ) : ℚ) / 233280 := by
        rw [lt_div_iff₀ (by norm_num : (0:ℚ) < 233280)]
        have : (-233280 : ℚ) < (((t * 9301 + 49297).tmod 233280 : ℤ) : ℚ) := by
          exact_mod_cast hb.1
        linarith
      have hhigh : (((t * 9301 + 49297).tmod 233280 : ℤ) : ℚ) / 233280 < 1 := by
        rw [div_lt_one (by norm_num : (0:ℚ) < 233280)]
        exact_mod_cast hb.2
      rw [abs_lt]
      constructor
      · linarith
      · linarith
    · unfold calculateOrganicConnectionPath
      rw [if_neg hge]

/-- Witness for C6: a short edge (distance 50 < 80) yields the 2-point
line, and the long edge of the counterexample yields the decomposed
3-point path; both hypotheses discharged by evaluating the exact
square root. -/
theorem connection_path_spec_witness :
    (calculateOrganicConnectionPath defaultLayoutCfg exOracle
      ⟨0, 0⟩ ⟨30, 40⟩ [] = [⟨0, 0⟩, ⟨30, 40⟩]) ∧
    (∃ sgn j : ℚ, (sgn = 1 ∨ sgn = -1) ∧ |j| < 45/2 ∧
      calculateOrganicConnectionPath defaultLayoutCfg exOracle
          ⟨500, 500⟩ ⟨620, 590⟩ [] =
        (let d := exOracle.sqrt
          (((⟨620, 590⟩ : Pos).x - (⟨500, 500⟩ : Pos).x) *
            ((⟨620, 590⟩ : Pos).x - (⟨500, 500⟩ : Pos).x) +
           ((⟨620, 590⟩ : Pos).y - (⟨500, 500⟩ : Pos).y) *
            ((⟨620, 590⟩ : Pos).y - (⟨500, 500⟩ : Pos).y))
        [⟨500, 500⟩,
         ⟨clampQ 50 (defaultLayoutCfg.canvasWidth - 50)
            (((⟨500, 500⟩ : Pos).x + (⟨620, 590⟩ : Pos).x) / 2 +
              -((⟨620, 590⟩ : Pos).y - (⟨500, 500⟩ : Pos).y) / d *
                ((d * defaultLayoutCfg.connectionCurve * (3/5) + 20) * sgn) +
              ((⟨620, 590⟩ : Pos).x - (⟨500, 500⟩ : Pos).x) / d * j),
          clampQ 50 (defaultLayoutCfg.canvasHeight - 50)
            (((⟨500, 500⟩ : Pos).y + (⟨620, 590⟩ : Pos).y) / 2 +
              ((⟨620, 590⟩ : Pos).x - (⟨500, 500⟩ : Pos).x) / d *
                ((d * defaultLayoutCfg.connectionCurve * (3/5) + 20) * sgn) -
              -((⟨620, 590⟩ : Pos).y - (⟨500, 500⟩ : Pos).y) / d * j)⟩,
         ⟨620, 590⟩])) := by
  constructor
  · refine (connection_path_spec defaultLayoutCfg exOracle ⟨0, 0⟩ ⟨30, 40⟩ [] []).2.1 ?_
    have ht : Int.toNat 2500 = 2500 := rfl
    norm_num [exOracle, ratSqrt, ht, defaultLayoutCfg]
  · exact (connection_path_spec defaultLayoutCfg exOracle
      ⟨500, 500⟩ ⟨620, 590⟩ [] []).2.2 (by
        have ht : Int.toNat 22500 = 22500 := rfl
        norm_num [exOracle, ratSqrt, ht, defaultLayoutCfg])

set_option maxHeartbeats 1000000 in
/-- **C6 (counterexample).** For the edge from `(500, 500)` to
`(620, 590)` (length exactly 150) the generated 3-point path's middle
control point is **not** a purely perpendicular offset from the edge
midpoint `(560, 545)`: its displacement has a non-zero inner product
with the edge direction `(120, 90)`, because the seeded secondary
offset is applied along the edge. -/
theorem connection_path_perp_counterexample :
    ((calculateOrganicConnectionPath defaultLayoutCfg exOracle
        ⟨500, 500⟩ ⟨620, 590⟩ []).length = 3) ∧
    ((((calculateOrganicConnectionPath defaultLayoutCfg exOracle
        ⟨500, 500⟩ ⟨620, 590⟩ []).getD 1 ⟨0, 0⟩).x - 560) * 120 +
     ((((calculateOrganicConnectionPath defaultLayoutCfg exOracle
        ⟨500, 500⟩ ⟨620, 590⟩ []).getD 1 ⟨0, 0⟩).y - 545) * 90) ≠ 0) := by
  have hseed : (2210 : ℤ).tmod 1000 = 210 := by decide
  have h1 : lcgNext 210 = 136267 := by decide
  have h2 : lcgNext 136267 = 58424 := by decide
  have ht : Int.toNat 22500 = 22500 := rfl
  constructor
  · norm_num [calculateOrganicConnectionPath, exOracle, ratSqrt, ht, defaultLayoutCfg]
  · norm_num [calculateOrganicConnectionPath, exOracle, ratSqrt, ht, defaultLayoutCfg,
      Int.floor_eq_iff, hseed, h1, h2, clampQ, min_def, max_def]
